import Mathlib

/-!
# StringResonator (sst-effects) : a shallow embedding

The definitions below follow `include/sst/voice-effects/delay/StringResonator.h`
and `include/sst/effects/ConcreteConfig.h` function by function.

Conventions of the embedding.

* A `float`/`double` value is an element of a linearly ordered field `K` with a floor
  function (`ℚ` when a definition is evaluated, `ℝ` when a genuine square root is wanted).
  Arithmetic is exact: infinities and NaN are not represented, and rounding is represented
  in one place only, the two angle stores of `panLineToOutput`, where it decides whether
  the far channel of a hard-panned string is silent (`narrowToFloat`).
* A `float *` block buffer is a function `ℕ → K`; only the indices below `blockSize` are
  touched.  Input and output buffers are distinct objects.
* Collaborators whose code is not part of the sources (the sinc delay line, the biquad
  filter, `pow` and `sqrt` of libm, the block size of the configuration) are fields of
  `Host`.  The block interpolator and the delay line support are modelled from the
  specification; their definitions say so.
-/

namespace StringResonator

section Embedding

variable {K L F : Type} [LinearOrderedField K] [FloorRing K]

/-! ## Constants and small helpers -/

/-- The enum `FloatParams` of the effect. -/
inductive FloatParams where
  | fpOffsetOne
  | fpOffsetTwo
  | fpPanOne
  | fpPanTwo
  | fpDecay
  | fpStiffness
  deriving DecidableEq, Repr

/-- The constant `shortLineSize`. -/
def shortLineSize : ℕ := 14

/-- The constant `longLineSize`. -/
def longLineSize : ℕ := 16

/-- The constant `maxMiliseconds`, commented `10 hz floor` in the source. -/
def maxMiliseconds : K := 100

/-- The C library constant `M_PI_2` (the literal of `math.h`). -/
def M_PI_2 : K := 1.57079632679489661923

/-- The function `std::clamp(v, lo, hi)`. -/
def clamp {α : Type} [LinearOrder α] (v lo hi : α) : α :=
  if v < lo then lo else if hi < v then hi else v

/-- The function `std::min(a, b)`. -/
def stdMin {α : Type} [LinearOrder α] (a b : α) : α :=
  if b < a then b else a

/-- The C conversion `(int)x`: truncation towards zero. -/
def toInt (x : K) : ℤ :=
  if 0 ≤ x then ⌊x⌋ else ⌈x⌉

/-- Reading `table[idx]` of a C array with an `int` index. -/
def tableAt (table : List K) (idx : ℤ) : K :=
  table.getD idx.toNat 0

/-! ## Collaborators -/

/-- The code the effect calls but does not contain. `L` is the state of one delay line,
`F` the state of one biquad filter. -/
structure Host (K L F : Type) where
  /-- The member `VFXConfig::blockSize`. -/
  blockSize : ℕ
  /-- The result of `getSampleRate()`. -/
  sampleRate : K
  /-- The method `read(delay)` of the delay line; it does not change the line. -/
  read : L → K → K
  /-- The method `write(sample)` of the delay line. -/
  write : L → K → L
  /-- The line that `prepareLine<N>` constructs for capacity class `N`. -/
  newLine : ℕ → L
  /-- The method `calc_omega` of the biquad. -/
  calc_omega : F → K → K
  /-- The method `coeff_LP(omega, Q)` of the biquad. -/
  coeff_LP : F → K → K → F
  /-- The method `coeff_HP(omega, Q)` of the biquad. -/
  coeff_HP : F → K → K → F
  /-- The method `process_sample(L, R, outL, outR)` of the biquad: new state and outputs. -/
  process_sample : F → K → K → F × K × K
  /-- The method `note_to_pitch_ignoring_tuning` of the effect base class. -/
  note_to_pitch_ignoring_tuning : K → K
  /-- The libm function `sqrt`. -/
  sqrt : K → K

/-- `ConcreteConfig::noteToPitch`, with libm `pow` as a parameter. -/
def ConcreteConfig.noteToPitch (pow : K → K → K) (p : K) : K :=
  pow 2 (p / 12)

/-- `ConcreteConfig::noteToPitchIgnoringTuning`. -/
def ConcreteConfig.noteToPitchIgnoringTuning (pow : K → K → K) (p : K) : K :=
  ConcreteConfig.noteToPitch pow p

/-- The member `ConcreteConfig::blockSize`. -/
def ConcreteConfig.blockSize : ℕ := 16

/-- Modelled from the spec: the block interpolator `lipol_sse` of `BlockInterpolators.h`,
which is not among the sources. It holds the current value, the target and the per-sample
increment (section 4.2 of the specification). -/
structure Lipol (K : Type) where
  current : K
  target : K
  increment : K

/-- Modelled from the spec: `setTarget(value)` of the smoothed parameter records the target
and recomputes the increment as `(target - current) / blockSize`. -/
def Lipol.set_target (blockSize : ℕ) (l : Lipol K) (t : K) : Lipol K :=
  { l with target := t, increment := (t - l.current) / (blockSize : K) }

/-- Modelled from the spec: `instantize()` of the smoothed parameter sets current to target
with zero increment. -/
def Lipol.instantize (l : Lipol K) : Lipol K :=
  { l with current := l.target, increment := 0 }

/-- Modelled from the spec: the trajectory written by `store_block` of the smoothed
parameter, a linear ramp whose last sample (index `blockSize - 1`) reaches the target. -/
def Lipol.trajectory (l : Lipol K) (i : ℕ) : K :=
  l.current + ((i : K) + 1) * l.increment

/-- Modelled from the spec: the state of the smoothed parameter once its trajectory has
been consumed; current equals target. -/
def Lipol.consumed (l : Lipol K) : Lipol K :=
  { l with current := l.target }

/-- One call into the delay line support, with the capacity class it was instantiated at. -/
inductive PoolCall where
  | preReserveLines (lineSize : ℕ)
  | prepareLine (lineSize : ℕ)
  | returnLines (lineSize : ℕ)
  | getLinePointer (lineSize : ℕ)
  deriving DecidableEq, Repr

/-- Modelled from the spec: `details::DelayLineSupport` of `DelaySupport.h`, which is not
among the sources. It holds the line and the calls made on it so far, oldest first. -/
structure DelayLineSupport (L : Type) where
  line : L
  calls : List PoolCall

/-- Modelled from the spec: `preReserveLines<N>` asks the pool for storage of class `N`. -/
def DelayLineSupport.preReserveLines (N : ℕ) (s : DelayLineSupport L) : DelayLineSupport L :=
  { s with calls := s.calls ++ [PoolCall.preReserveLines N] }

/-- Modelled from the spec: `prepareLine<N>` acquires the storage and constructs the line. -/
def DelayLineSupport.prepareLine (h : Host K L F) (N : ℕ) (s : DelayLineSupport L) :
    DelayLineSupport L :=
  { line := h.newLine N, calls := s.calls ++ [PoolCall.prepareLine N] }

/-- Modelled from the spec: `returnLines<N>` gives the storage of class `N` back. -/
def DelayLineSupport.returnLines (N : ℕ) (s : DelayLineSupport L) : DelayLineSupport L :=
  { s with calls := s.calls ++ [PoolCall.returnLines N] }

/-- Modelled from the spec: `getLinePointer<N>` hands out the line, viewed at class `N`. -/
def DelayLineSupport.getLinePointer (N : ℕ) (s : DelayLineSupport L) :
    DelayLineSupport L × L :=
  ({ s with calls := s.calls ++ [PoolCall.getLinePointer N] }, s.line)

/-! ## The effect -/

/-- The data members of `StringResonator` together with the parameter values the base
class resolves through `getFloatParam`. -/
structure Effect (K L F : Type) where
  param : FloatParams → K
  lineSupport0 : DelayLineSupport L
  lineSupport1 : DelayLineSupport L
  isShort : Bool
  firstPitch : Bool
  mLastParam : FloatParams → K
  lipolPitchOne : Lipol K
  lipolPitchTwo : Lipol K
  lipolDecay : Lipol K
  lp : F
  hp : F

/-- The constructor `StringResonator(const SincTable &)`. The member initialisers give
`isShort{true}` and `firstPitch{false}`; the objects built by collaborators (line support,
interpolators, filters) and the parameter storage are arguments. -/
def construct (param : FloatParams → K) (line0 line1 : L) (lipol0 : Lipol K) (lp hp : F) :
    Effect K L F :=
  { param := param
    lineSupport0 := { line := line0, calls := [] }
    lineSupport1 := { line := line1, calls := [] }
    isShort := true
    firstPitch := false
    mLastParam := fun _ => -188888
    lipolPitchOne := lipol0
    lipolPitchTwo := lipol0
    lipolDecay := lipol0
    lp := lp
    hp := hp }

/-- The destructor `~StringResonator()`. -/
def destruct (e : Effect K L F) : Effect K L F :=
  if e.isShort then
    { e with
      lineSupport0 := e.lineSupport0.returnLines shortLineSize
      lineSupport1 := e.lineSupport1.returnLines shortLineSize }
  else
    { e with
      lineSupport0 := e.lineSupport0.returnLines longLineSize
      lineSupport1 := e.lineSupport1.returnLines longLineSize }

/-- The method `initVoiceEffect()`. -/
def initVoiceEffect (h : Host K L F) (e : Effect K L F) : Effect K L F :=
  if h.sampleRate * 0.1 > ((2 ^ 14 : ℕ) : K) then
    { e with
      isShort := false
      lineSupport0 := (e.lineSupport0.preReserveLines longLineSize).prepareLine h longLineSize
      lineSupport1 := (e.lineSupport1.preReserveLines longLineSize).prepareLine h longLineSize }
  else
    { e with
      isShort := true
      lineSupport0 := (e.lineSupport0.preReserveLines shortLineSize).prepareLine h shortLineSize
      lineSupport1 := (e.lineSupport1.preReserveLines shortLineSize).prepareLine h shortLineSize }

/-- The method `equalPowerFormula(theta)`. -/
def equalPowerFormula (theta : K) : K :=
  (theta + (theta * theta * theta) * (-0.166666667 + theta * theta * 0.00833333333))
    * 1.414213562

/-- The method `balancedMonoSum(pan, leftIn, rightIn, sum)`; the result is `sum`. -/
def balancedMonoSum (pan leftIn rightIn : K) : K :=
  if pan = 0.5 then
    leftIn + rightIn
  else if pan = 0 then
    leftIn
  else if pan = 1 then
    rightIn
  else
    let rTheta : K := pan * M_PI_2
    let lTheta : K := M_PI_2 - rTheta
    let leftVolume := leftIn * equalPowerFormula lTheta
    let rightVolume := rightIn * equalPowerFormula rTheta
    leftVolume + rightVolume

/-- Rounding to the nearest integer, ties to the even neighbour. -/
def roundHalfEven (y : K) : ℤ :=
  let f : ℤ := ⌊y⌋
  let r : K := y - (f : K)
  if r < 1 / 2 then f else if 1 / 2 < r then f + 1 else if f % 2 = 0 then f else f + 1

/-- The conversion of a `double` value to `float` that C performs when a `double`
expression is stored in a `float` variable: IEEE 754 binary32, 24 significant bits, round
to nearest, ties to even. The exponent is not bounded (no overflow, no subnormals). -/
def narrowToFloat (x : K) : K :=
  if x = 0 then 0
  else
    let e : ℤ := Int.log 2 |x|
    let ulp : K := 2 ^ (e - 23)
    (roundHalfEven (x / ulp) : K) * ulp

/-- The method `panLineToOutput(pan, monoIn, outL, outR)`; the result is `(outL, outR)`.
`M_PI_2` is a `double` and the two angles are `float` variables, so both stores narrow
their value. The narrowing is kept here because it decides the far channel at pan 1: the
stored `rTheta` is not `M_PI_2`, and `lTheta` is their difference, not zero. -/
def panLineToOutput (pan monoIn : K) : K × K :=
  let rTheta : K := narrowToFloat (pan * M_PI_2)
  let lTheta : K := narrowToFloat (M_PI_2 - rTheta)
  (monoIn * equalPowerFormula lTheta, monoIn * equalPowerFormula rTheta)

/-- The table `retunes` of the branch `tv < 0`. -/
def retunesNeg : List K := [-0.0591202, -0.122405, -0.225738, -0.406056, -0.7590243]

/-- The table `retunes` of the branch `tv > 0`. -/
def retunesPos : List K := [0.02752047, 0.09026062, 0.31, 0.615, 0.87]

/-- The method `pitchAdjustmentForStiffness()`, as a function of the stiffness parameter. -/
def pitchAdjustmentForStiffness (tv : K) : K :=
  if tv = 0 then
    0
  else if tv < 0 then
    let fidx : K := clamp (-4 * tv) 0 4
    let idx : ℤ := clamp (toInt fidx) 0 3
    let frac : K := fidx - (idx : K)
    let res := tableAt retunesNeg idx * (1 - frac) + tableAt retunesNeg (idx + 1) * frac;
    -res
  else
    let fidx : K := clamp (4 * tv) 0 4
    let idx : ℤ := clamp (toInt fidx) 0 3
    let frac : K := fidx - (idx : K)
    let res := tableAt retunesPos idx * (1 - frac) + tableAt retunesPos (idx + 1) * frac;
    -res

/-- The cutoffs `(lpCutoff, hpCutoff)` that `setupFilters(pitch)` computes, for the
stiffness value `tone`. The locals `clo` and the first value of `cmidhi`, which the source
never reads, are left out. -/
def filterCutoffs (tone pitch : K) : K × K :=
  let pitch := pitch + 69
  let cmid : K := 100
  let chi : K := -70
  let hpCutoff : K := chi
  let lpCutoff : K := cmid
  if tone > 0 then
    let cmidhi : K := 10
    let chi : K := -70
    let tv := tone
    let hpCutoff : K := tv * (cmidhi - chi) + chi + pitch - 60
    (lpCutoff, hpCutoff)
  else
    let tv := -tone
    let lpCutoff : K := pitch - 40 * tv
    (lpCutoff, hpCutoff)

/-- The method `setupFilters(pitch)`. -/
def setupFilters (h : Host K L F) (e : Effect K L F) (pitch : K) : Effect K L F :=
  let c := filterCutoffs (e.param FloatParams.fpStiffness) pitch
  { e with
    lp := h.coeff_LP e.lp (h.calc_omega e.lp (c.1 / 12)) 0.707
    hp := h.coeff_HP e.hp (h.calc_omega e.hp (c.2 / 12)) 0.707 }

/-- The method `mech::copy_from_to<blockSize>(src, dst)`: the new content of `dst`. -/
def copy_from_to (blockSize : ℕ) (src dst : ℕ → K) : ℕ → K :=
  fun i => if i < blockSize then src i else dst i

/-- The feedback coefficient that `processImpl` computes from the decay parameter
(the two statements assigning `dcv`). -/
def decayCoefficient (sqrt : K → K) (decay : K) : K :=
  let dcv : K := clamp decay 0 1 * 0.12 + 0.88
  stdMin (sqrt dcv) 0.99999

/-- The delay time `getSampleRate() / (440 * note_to_pitch_ignoring_tuning(pt))` that
`processImpl` hands to a pitch interpolator. -/
def delayTime (h : Host K L F) (pt : K) : K :=
  h.sampleRate / (440 * h.note_to_pitch_ignoring_tuning pt)

/-- What the per-sample loop of `processImpl` reads and writes. -/
structure LoopState (K L F : Type) where
  line0 : L
  line1 : L
  lp : F
  hp : F
  dataoutL : ℕ → K
  dataoutR : ℕ → K

/-- The tone stage inside the loop of `processImpl`: the filters after it and the two
string signals after it. -/
def toneStage (h : Host K L F) (tone : K) (lp hp : F) (inToOne inToTwo : K) :
    F × F × K × K :=
  if tone < 0 then
    let r := h.process_sample lp inToOne inToTwo
    (r.1, hp, r.2.1, r.2.2)
  else if tone > 0 then
    let r := h.process_sample hp inToOne inToTwo
    (lp, r.1, r.2.1, r.2.2)
  else
    (lp, hp, inToOne, inToTwo)

/-- The body of the loop `for (int i = 0; i < blockSize; ++i)` of `processImpl`. -/
def sampleStep (h : Host K L F) (panParamOne panParamTwo tone : K)
    (datainL datainR dtOne dtTwo dc : ℕ → K) (i : ℕ) (st : LoopState K L F) :
    LoopState K L F :=
  let fromLineOne := h.read st.line0 (dtOne i)
  let fromLineTwo := h.read st.line1 (dtTwo i)
  let inToOne := balancedMonoSum panParamOne (datainL i) (datainR i)
  let inToTwo := balancedMonoSum panParamTwo (datainL i) (datainR i)
  let inToOne := inToOne + dc i * fromLineOne
  let inToTwo := inToTwo + dc i * fromLineTwo
  let t := toneStage h tone st.lp st.hp inToOne inToTwo
  let inToOne := t.2.2.1
  let inToTwo := t.2.2.2
  let outOne := panLineToOutput panParamOne inToOne
  let outTwo := panLineToOutput panParamTwo inToTwo
  { line0 := h.write st.line0 inToOne
    line1 := h.write st.line1 inToTwo
    lp := t.1
    hp := t.2.1
    dataoutL := Function.update st.dataoutL i ((outOne.1 + outTwo.1) / 2)
    dataoutR := Function.update st.dataoutR i ((outOne.2 + outTwo.2) / 2) }

/-- The loop of `processImpl` after its first `n` iterations. -/
def sampleLoop (h : Host K L F) (panParamOne panParamTwo tone : K)
    (datainL datainR dtOne dtTwo dc : ℕ → K) : ℕ → LoopState K L F → LoopState K L F
  | 0, st => st
  | n + 1, st =>
    sampleStep h panParamOne panParamTwo tone datainL datainR dtOne dtTwo dc n
      (sampleLoop h panParamOne panParamTwo tone datainL datainR dtOne dtTwo dc n st)

/-- The part of `processImpl` before the loop: pitches, filter setup, interpolator targets,
the first-block test. The result is the effect at the point of the `store_block` calls. -/
def prepareBlock (h : Host K L F) (e : Effect K L F) (pitch : K) : Effect K L F :=
  let ptOne := pitch + e.param FloatParams.fpOffsetOne
  let ptTwo := pitch + e.param FloatParams.fpOffsetTwo
  let ptOne := ptOne + pitchAdjustmentForStiffness (e.param FloatParams.fpStiffness)
  let ptTwo := ptTwo + pitchAdjustmentForStiffness (e.param FloatParams.fpStiffness)
  let e := setupFilters h e ptOne
  let e := setupFilters h e ptTwo
  let e := { e with lipolPitchOne := e.lipolPitchOne.set_target h.blockSize (delayTime h ptOne) }
  let e := { e with lipolPitchTwo := e.lipolPitchTwo.set_target h.blockSize (delayTime h ptTwo) }
  let dcv := decayCoefficient h.sqrt (e.param FloatParams.fpDecay)
  let e := { e with lipolDecay := e.lipolDecay.set_target h.blockSize dcv }
  if e.firstPitch then
    { e with
      lipolPitchOne := e.lipolPitchOne.instantize
      lipolPitchTwo := e.lipolPitchTwo.instantize
      lipolDecay := e.lipolDecay.instantize
      firstPitch := false }
  else
    e

/-- The result of one `processImpl` call. -/
structure BlockResult (K L F : Type) where
  effect : Effect K L F
  line0 : L
  line1 : L
  dataoutL : ℕ → K
  dataoutR : ℕ → K

/-- The state of `processImpl` after the first `n` iterations of its loop: everything
before the loop, then `n` times the body. -/
def blockLoop (h : Host K L F) (e : Effect K L F) (line0 line1 : L)
    (datainL datainR dataoutL dataoutR : ℕ → K) (pitch : K) (n : ℕ) : LoopState K L F :=
  let dataoutL := copy_from_to h.blockSize datainL dataoutL
  let dataoutR := copy_from_to h.blockSize datainR dataoutR
  let panParamOne := (e.param FloatParams.fpPanOne + 1) / 2
  let panParamTwo := (e.param FloatParams.fpPanTwo + 1) / 2
  let e := prepareBlock h e pitch
  let dtOne := e.lipolPitchOne.trajectory
  let dtTwo := e.lipolPitchTwo.trajectory
  let dc := e.lipolDecay.trajectory
  let tone := e.param FloatParams.fpStiffness
  sampleLoop h panParamOne panParamTwo tone datainL datainR dtOne dtTwo dc n
    { line0 := line0, line1 := line1, lp := e.lp, hp := e.hp,
      dataoutL := dataoutL, dataoutR := dataoutR }

/-- The method `processImpl(lines, datainL, datainR, dataoutL, dataoutR, pitch)`. -/
def processImpl (h : Host K L F) (e : Effect K L F) (line0 line1 : L)
    (datainL datainR dataoutL dataoutR : ℕ → K) (pitch : K) : BlockResult K L F :=
  let st := blockLoop h e line0 line1 datainL datainR dataoutL dataoutR pitch h.blockSize
  let e := prepareBlock h e pitch
  { effect := { e with
      lipolPitchOne := e.lipolPitchOne.consumed
      lipolPitchTwo := e.lipolPitchTwo.consumed
      lipolDecay := e.lipolDecay.consumed
      lp := st.lp
      hp := st.hp }
    line0 := st.line0
    line1 := st.line1
    dataoutL := st.dataoutL
    dataoutR := st.dataoutR }

/-- One branch of `processStereo`: fetch both line pointers at class `N` and run
`processImpl` on them. The lines are reached through pointers, so what `processImpl`
writes to them is what the line support holds afterwards. -/
def processWithClass (h : Host K L F) (N : ℕ) (e : Effect K L F)
    (datainL datainR dataoutL dataoutR : ℕ → K) (pitch : K) : BlockResult K L F :=
  let p0 := e.lineSupport0.getLinePointer N
  let p1 := e.lineSupport1.getLinePointer N
  let r := processImpl h { e with lineSupport0 := p0.1, lineSupport1 := p1.1 } p0.2 p1.2
    datainL datainR dataoutL dataoutR pitch
  { r with
    effect := { r.effect with
      lineSupport0 := { r.effect.lineSupport0 with line := r.line0 }
      lineSupport1 := { r.effect.lineSupport1 with line := r.line1 } } }

/-- The method `processStereo(datainL, datainR, dataoutL, dataoutR, pitch)`. -/
def processStereo (h : Host K L F) (e : Effect K L F)
    (datainL datainR dataoutL dataoutR : ℕ → K) (pitch : K) : BlockResult K L F :=
  if e.isShort then
    processWithClass h shortLineSize e datainL datainR dataoutL dataoutR pitch
  else
    processWithClass h longLineSize e datainL datainR dataoutL dataoutR pitch

/-! ## Reference definitions the claims are compared with -/

/-- The lower table index `idx` that `pitchAdjustmentForStiffness` computes. -/
def stiffnessIndex (tv : K) : ℤ :=
  if tv < 0 then clamp (toInt (clamp (-4 * tv) 0 4)) 0 3
  else clamp (toInt (clamp (4 * tv) 0 4)) 0 3

/-- The calibration table of the reference lookup, chosen by the sign of the stiffness. -/
def referenceTable (t : K) : List K :=
  if t < 0 then [-0.0591202, -0.122405, -0.225738, -0.406056, -0.7590243]
  else [0.02752047, 0.09026062, 0.31, 0.615, 0.87]

/-- The reference lookup of the specification: zero at zero, otherwise the negated linear
interpolation between `table[idx]` and `table[idx+1]` at `f = clamp(4*|t|, 0, 4)`,
`idx = clamp(floor(f), 0, 3)`, `frac = f - idx`. -/
def referenceLookup (t : K) : K :=
  if t = 0 then 0
  else
    let f : K := max 0 (min (4 * |t|) 4)
    let idx : ℤ := max 0 (min ⌊f⌋ 3)
    let frac : K := f - (idx : K);
    -((referenceTable t).getD idx.toNat 0 * (1 - frac)
      + (referenceTable t).getD (idx.toNat + 1) 0 * frac)

/-- The loop body of the specification's bypass reference: `sampleStep` with the tone
filter stage removed, so the filters are not touched and the lines receive the sums. -/
def sampleStepUnfiltered (h : Host K L F) (panParamOne panParamTwo : K)
    (datainL datainR dtOne dtTwo dc : ℕ → K) (i : ℕ) (st : LoopState K L F) :
    LoopState K L F :=
  let inToOne := balancedMonoSum panParamOne (datainL i) (datainR i)
    + dc i * h.read st.line0 (dtOne i)
  let inToTwo := balancedMonoSum panParamTwo (datainL i) (datainR i)
    + dc i * h.read st.line1 (dtTwo i)
  let outOne := panLineToOutput panParamOne inToOne
  let outTwo := panLineToOutput panParamTwo inToTwo
  { st with
    line0 := h.write st.line0 inToOne
    line1 := h.write st.line1 inToTwo
    dataoutL := Function.update st.dataoutL i ((outOne.1 + outTwo.1) / 2)
    dataoutR := Function.update st.dataoutR i ((outOne.2 + outTwo.2) / 2) }

/-- The first `n` iterations of the bypass reference loop. -/
def sampleLoopUnfiltered (h : Host K L F) (panParamOne panParamTwo : K)
    (datainL datainR dtOne dtTwo dc : ℕ → K) : ℕ → LoopState K L F → LoopState K L F
  | 0, st => st
  | n + 1, st =>
    sampleStepUnfiltered h panParamOne panParamTwo datainL datainR dtOne dtTwo dc n
      (sampleLoopUnfiltered h panParamOne panParamTwo datainL datainR dtOne dtTwo dc n st)

/-- The bypass reference of the specification: `processImpl` with the tone filter stage
removed from the per-sample loop. -/
def processImplUnfiltered (h : Host K L F) (e : Effect K L F) (line0 line1 : L)
    (datainL datainR dataoutL dataoutR : ℕ → K) (pitch : K) : BlockResult K L F :=
  let e1 := prepareBlock h e pitch
  let st := sampleLoopUnfiltered h
    ((e.param FloatParams.fpPanOne + 1) / 2) ((e.param FloatParams.fpPanTwo + 1) / 2)
    datainL datainR e1.lipolPitchOne.trajectory e1.lipolPitchTwo.trajectory
    e1.lipolDecay.trajectory h.blockSize
    { line0 := line0, line1 := line1, lp := e1.lp, hp := e1.hp,
      dataoutL := copy_from_to h.blockSize datainL dataoutL,
      dataoutR := copy_from_to h.blockSize datainR dataoutR }
  { effect := { e1 with
      lipolPitchOne := e1.lipolPitchOne.consumed
      lipolPitchTwo := e1.lipolPitchTwo.consumed
      lipolDecay := e1.lipolDecay.consumed }
    line0 := st.line0
    line1 := st.line1
    dataoutL := st.dataoutL
    dataoutR := st.dataoutR }

/-! ## A concrete host for evaluation -/

/-- A stand-in for libm `pow`, exact wherever the exponent is an integer. -/
def powAtIntegers (b x : K) : K := b ^ ⌊x⌋

/-- A stand-in for libm `sqrt` on `ℚ`: the square root rounded down to five decimals. -/
def sqrtFiveDecimals (x : ℚ) : ℚ := (Nat.sqrt ⌊x * 10 ^ 10⌋.toNat : ℚ) / 10 ^ 5

/-- A host built on `ConcreteConfig` (block size 16, `noteToPitchIgnoringTuning`), with a
delay line that keeps the written samples newest first and reads at the whole part of the
delay, and a biquad that passes its input through and counts its `process_sample` calls. -/
def plainHost (sampleRate : K) (pow : K → K → K) (sqrt : K → K) : Host K (List K) ℕ :=
  { blockSize := ConcreteConfig.blockSize
    sampleRate := sampleRate
    read := fun l d => l.getD ⌊d⌋.toNat 0
    write := fun l x => x :: l
    newLine := fun _ => []
    calc_omega := fun _ x => x
    coeff_LP := fun f _ _ => f
    coeff_HP := fun f _ _ => f
    process_sample := fun f a b => (f + 1, a, b)
    note_to_pitch_ignoring_tuning := ConcreteConfig.noteToPitchIgnoringTuning pow
    sqrt := sqrt }

/-- The host `plainHost` over `ℚ` at 48000 Hz. -/
def concreteHost : Host ℚ (List ℚ) ℕ := plainHost 48000 powAtIntegers sqrtFiveDecimals

/-- The host `plainHost` with another biquad stand-in: the state of a filter is the pair
`(omega, Q)` that the last `coeff_LP` or `coeff_HP` call stored in it, `calc_omega` returns
its argument, and `process_sample` passes the input through. -/
def coefficientHost (sampleRate : K) (pow : K → K → K) (sqrt : K → K) :
    Host K (List K) (K × K) :=
  { blockSize := ConcreteConfig.blockSize
    sampleRate := sampleRate
    read := fun l d => l.getD ⌊d⌋.toNat 0
    write := fun l x => x :: l
    newLine := fun _ => []
    calc_omega := fun _ x => x
    coeff_LP := fun _ omega q => (omega, q)
    coeff_HP := fun _ omega q => (omega, q)
    process_sample := fun f a b => (f, a, b)
    note_to_pitch_ignoring_tuning := ConcreteConfig.noteToPitchIgnoringTuning pow
    sqrt := sqrt }

/-- A freshly constructed effect on `coefficientHost` with the given parameters; the
interpolators and the filter coefficients start from zero. -/
def freshCoefficientEffect (p : FloatParams → K) : Effect K (List K) (K × K) :=
  construct p [] [] { current := 0, target := 0, increment := 0 } (0, 0) (0, 0)

/-- The six parameter values, in the order of the enum `FloatParams`. -/
def paramsOf (offsetOne offsetTwo panOne panTwo decay stiffness : K) : FloatParams → K
  | FloatParams.fpOffsetOne => offsetOne
  | FloatParams.fpOffsetTwo => offsetTwo
  | FloatParams.fpPanOne => panOne
  | FloatParams.fpPanTwo => panTwo
  | FloatParams.fpDecay => decay
  | FloatParams.fpStiffness => stiffness

/-- A freshly constructed effect on `plainHost` with the given parameters; the
interpolators start from zero. -/
def freshEffect (p : FloatParams → K) : Effect K (List K) ℕ :=
  construct p [] [] { current := 0, target := 0, increment := 0 } 0 0

end Embedding

/-! ## Auxiliary lemmas -/

section Properties

variable {K L F : Type} [LinearOrderedField K]

theorem clamp_eq_max_min {α : Type} [LinearOrder α] (v lo hi : α) (h : lo ≤ hi) :
    clamp v lo hi = max lo (min v hi) := by
  unfold clamp
  split_ifs with h1 h2
  · rw [max_eq_left]; exact le_trans (min_le_left _ _) h1.le
  · rw [min_eq_right h2.le, max_eq_right h]
  · push_neg at h1 h2
    rw [min_eq_left h2, max_eq_right h1]

theorem stdMin_eq_min {α : Type} [LinearOrder α] (a b : α) : stdMin a b = min a b := by
  unfold stdMin
  split_ifs with h
  · exact (min_eq_right h.le).symm
  · exact (min_eq_left (not_lt.mp h)).symm

theorem clamp_index_bounds (v : ℤ) : 0 ≤ clamp v 0 3 ∧ clamp v 0 3 + 1 ≤ 4 := by
  unfold clamp
  split_ifs <;> omega

theorem toInt_of_nonneg [FloorRing K] (x : K) (hx : 0 ≤ x) : toInt x = ⌊x⌋ := by
  simp [toInt, hx]

theorem equalPowerFormula_zero : equalPowerFormula (0 : K) = 0 := by
  simp [equalPowerFormula]

theorem balancedMonoSum_zero (l r : K) : balancedMonoSum 0 l r = l := by
  norm_num [balancedMonoSum]

theorem balancedMonoSum_one (l r : K) : balancedMonoSum 1 l r = r := by
  norm_num [balancedMonoSum]

theorem roundHalfEven_of_lt [FloorRing K] (y : K) (f : ℤ) (h1 : (f : K) ≤ y)
    (h2 : y < (f : K) + 1 / 2) : roundHalfEven y = f := by
  have hf : ⌊y⌋ = f := by
    rw [Int.floor_eq_iff]
    exact ⟨h1, by linarith⟩
  have hr : y - (f : K) < 1 / 2 := by linarith
  simp only [roundHalfEven, hf, hr, if_true]

theorem roundHalfEven_of_gt [FloorRing K] (y : K) (f : ℤ) (h1 : (f : K) + 1 / 2 < y)
    (h2 : y < (f : K) + 1) : roundHalfEven y = f + 1 := by
  have hf : ⌊y⌋ = f := by
    rw [Int.floor_eq_iff]
    exact ⟨by linarith, h2⟩
  have hr : ¬ y - (f : K) < 1 / 2 := by linarith
  have hr2 : 1 / 2 < y - (f : K) := by linarith
  simp only [roundHalfEven, hf, hr, hr2, if_true, if_false]

theorem narrowToFloat_zero [FloorRing K] : narrowToFloat (0 : K) = 0 := by
  simp [narrowToFloat]

/-- A value in the binade `[2^e, 2^(e+1))` is narrowed to a multiple of `2^(e-23)`. -/
theorem narrowToFloat_eq [FloorRing K] (x : K) (e n : ℤ) (h1 : (2 : K) ^ e ≤ |x|)
    (h2 : |x| < (2 : K) ^ (e + 1)) (hr : roundHalfEven (x / 2 ^ (e - 23)) = n) :
    narrowToFloat x = (n : K) * 2 ^ (e - 23) := by
  have hpos : 0 < |x| := lt_of_lt_of_le (zpow_pos (by norm_num) e) h1
  have hx : x ≠ 0 := abs_pos.mp hpos
  have hlog : Int.log 2 |x| = e := by
    have a : e ≤ Int.log 2 |x| :=
      (Int.zpow_le_iff_le_log (by norm_num) hpos).mp (by exact_mod_cast h1)
    have b : Int.log 2 |x| < e + 1 :=
      (Int.lt_zpow_iff_log_lt (by norm_num) hpos).mp (by exact_mod_cast h2)
    omega
  simp only [narrowToFloat, hx, if_false, hlog, hr]

/-- The `float` nearest to `M_PI_2` is `13176795 / 2^23`, a little above it. -/
theorem narrowToFloat_M_PI_2 [FloorRing K] :
    narrowToFloat (M_PI_2 : K) = 13176795 / 2 ^ 23 := by
  have h := narrowToFloat_eq (M_PI_2 : K) 0 13176795
    (by rw [abs_of_pos (by norm_num [M_PI_2])]; norm_num [M_PI_2])
    (by rw [abs_of_pos (by norm_num [M_PI_2])]; norm_num [M_PI_2])
    (by
      have := roundHalfEven_of_gt ((M_PI_2 : K) / 2 ^ ((0 : ℤ) - 23)) 13176794
        (by norm_num [M_PI_2]) (by norm_num [M_PI_2])
      simpa using this)
  rw [h]
  norm_num

/-- The difference between `M_PI_2` and its `float` is narrowed to `-12303662 / 2^48`. -/
theorem narrowToFloat_residual [FloorRing K] :
    narrowToFloat ((M_PI_2 : K) - 13176795 / 2 ^ 23) = -12303662 / 2 ^ 48 := by
  have hneg : (M_PI_2 : K) - 13176795 / 2 ^ 23 < 0 := by norm_num [M_PI_2]
  have h := narrowToFloat_eq ((M_PI_2 : K) - 13176795 / 2 ^ 23) (-25) (-12303662)
    (by rw [abs_of_neg hneg]; norm_num [M_PI_2])
    (by rw [abs_of_neg hneg]; norm_num [M_PI_2])
    (by
      have := roundHalfEven_of_gt (((M_PI_2 : K) - 13176795 / 2 ^ 23) / 2 ^ ((-25 : ℤ) - 23))
        (-12303663) (by norm_num [M_PI_2]) (by norm_num [M_PI_2])
      simpa using this)
  rw [h]
  norm_num

theorem panLineToOutput_zero [FloorRing K] (m : K) :
    panLineToOutput 0 m
      = (m * equalPowerFormula (13176795 / 2 ^ 23), m * equalPowerFormula 0) := by
  simp only [panLineToOutput, zero_mul, narrowToFloat_zero, sub_zero, narrowToFloat_M_PI_2]

theorem panLineToOutput_one [FloorRing K] (m : K) :
    panLineToOutput 1 m
      = (m * equalPowerFormula (-12303662 / 2 ^ 48),
         m * equalPowerFormula (13176795 / 2 ^ 23)) := by
  simp only [panLineToOutput, one_mul, narrowToFloat_M_PI_2, narrowToFloat_residual]

/-- The gain of `equalPowerFormula` at the two angles a hard-panned string meets. -/
theorem equalPowerFormula_at_extremes :
    (1.42 : K) < equalPowerFormula (13176795 / 2 ^ 23) ∧
    equalPowerFormula (13176795 / 2 ^ 23 : K) < 1.421 ∧
    (-619 / 10 ^ 10 : K) < equalPowerFormula (-12303662 / 2 ^ 48) ∧
    equalPowerFormula (-12303662 / 2 ^ 48 : K) < -618 / 10 ^ 10 := by
  refine ⟨?_, ?_, ?_, ?_⟩ <;> norm_num [equalPowerFormula]

theorem pitchAdjustment_zero [FloorRing K] :
    pitchAdjustmentForStiffness (0 : K) = 0 := by
  simp [pitchAdjustmentForStiffness]

/-- The two interpolation lines of `pitchAdjustmentForStiffness` agree with the reference
interpolation written with `max`, `min` and `floor`. -/
theorem lookup_core [FloorRing K] (table : List K) (x : K) :
    (let fidx : K := clamp x 0 4
     let idx : ℤ := clamp (toInt fidx) 0 3
     let frac : K := fidx - (idx : K)
     tableAt table idx * (1 - frac) + tableAt table (idx + 1) * frac)
    = (let f : K := max 0 (min x 4)
       let idx : ℤ := max 0 (min ⌊f⌋ 3)
       let frac : K := f - (idx : K)
       table.getD idx.toNat 0 * (1 - frac) + table.getD (idx.toNat + 1) 0 * frac) := by
  have hf : clamp x (0 : K) 4 = max 0 (min x 4) := clamp_eq_max_min _ _ _ (by norm_num)
  have hf0 : (0 : K) ≤ max 0 (min x 4) := le_max_left _ _
  simp only [hf, toInt_of_nonneg _ hf0, clamp_eq_max_min _ (0 : ℤ) 3 (by norm_num), tableAt]
  have : ((max 0 (min ⌊max (0 : K) (min x 4)⌋ 3) : ℤ) + 1).toNat
      = (max 0 (min ⌊max (0 : K) (min x 4)⌋ 3) : ℤ).toNat + 1 := by
    have : (0 : ℤ) ≤ max 0 (min ⌊max (0 : K) (min x 4)⌋ 3) := le_max_left _ _
    omega
  rw [this]

/-- At or beyond the end of the table the interpolation returns the last entry. -/
theorem lookup_at_top [FloorRing K] (table : List K) (x : K) (hx : 4 ≤ x) :
    (let fidx : K := clamp x 0 4
     let idx : ℤ := clamp (toInt fidx) 0 3
     let frac : K := fidx - (idx : K)
     tableAt table idx * (1 - frac) + tableAt table (idx + 1) * frac)
    = table.getD 4 0 := by
  have hf : clamp x (0 : K) 4 = 4 := by
    unfold clamp
    have : ¬ x < 0 := by linarith
    rcases eq_or_lt_of_le hx with h | h
    · simp [this, ← h]
    · simp [this, h]
  have hfl : toInt (4 : K) = 4 := by
    have : ⌊(4 : K)⌋ = 4 := by simp
    simp [toInt, this]
  have hi : clamp (4 : ℤ) 0 3 = 3 := by decide
  have e1 : Int.toNat 3 = 3 := rfl
  have e2 : ((3 : ℤ) + 1).toNat = 4 := rfl
  simp only [hf, hfl, hi, tableAt, e1, e2]
  push_cast
  ring

/-- On the first table segment the interpolation runs between entries 0 and 1. -/
theorem lookup_first_segment [FloorRing K] (table : List K) (x : K) (h0 : 0 ≤ x)
    (h1 : x < 1) :
    (let fidx : K := clamp x 0 4
     let idx : ℤ := clamp (toInt fidx) 0 3
     let frac : K := fidx - (idx : K)
     tableAt table idx * (1 - frac) + tableAt table (idx + 1) * frac)
    = table.getD 0 0 * (1 - x) + table.getD 1 0 * x := by
  have hf : clamp x (0 : K) 4 = x := by
    unfold clamp
    have h2 : ¬ x < 0 := not_lt.mpr h0
    have h3 : ¬ (4 : K) < x := by linarith
    simp [h2, h3]
  have hfl : toInt x = 0 := by
    rw [toInt_of_nonneg x h0, Int.floor_eq_iff]
    constructor <;> simp [h0, h1]
  have hi : clamp (0 : ℤ) 0 3 = 0 := by decide
  have e1 : Int.toNat 0 = 0 := rfl
  have e2 : ((0 : ℤ) + 1).toNat = 1 := rfl
  simp only [hf, hfl, hi, tableAt, e1, e2]
  push_cast
  ring

theorem pitchAdjustment_below [FloorRing K] (t : K) (h1 : -(1 / 4) < t) (h2 : t < 0) :
    pitchAdjustmentForStiffness t = 0.0591202 - 0.2531392 * t := by
  have h0 : t ≠ 0 := ne_of_lt h2
  unfold pitchAdjustmentForStiffness
  simp only [h0, h2, if_false, if_true]
  rw [lookup_first_segment retunesNeg (-4 * t) (by linarith) (by linarith)]
  norm_num [retunesNeg]
  ring

theorem pitchAdjustment_above [FloorRing K] (t : K) (h1 : 0 < t) (h2 : t < 1 / 4) :
    pitchAdjustmentForStiffness t = -0.02752047 - 0.2509606 * t := by
  have h0 : t ≠ 0 := ne_of_gt h1
  have hneg : ¬ t < 0 := not_lt.mpr h1.le
  unfold pitchAdjustmentForStiffness
  simp only [h0, hneg, if_false]
  rw [lookup_first_segment retunesPos (4 * t) (by linarith) (by linarith)]
  norm_num [retunesPos]
  ring

theorem decayCoefficient_eq (sqrt : K → K) (d : K) :
    decayCoefficient sqrt d = min (sqrt (max 0 (min d 1) * 0.12 + 0.88)) 0.99999 := by
  simp only [decayCoefficient, stdMin_eq_min, clamp_eq_max_min d (0 : K) 1 zero_le_one]

/-- An exact square root is monotone on the non-negative values. -/
theorem sqrt_le_of_sq_le (sqrt : K → K)
    (hs : ∀ x : K, 0 ≤ x → 0 ≤ sqrt x ∧ sqrt x * sqrt x = x) (a b : K) (ha : 0 ≤ a)
    (hab : a ≤ b) : sqrt a ≤ sqrt b := by
  by_contra hlt
  push_neg at hlt
  have h1 := hs a ha
  have h2 := hs b (le_trans ha hab)
  have : sqrt b * sqrt b < sqrt a * sqrt a := mul_self_lt_mul_self h2.1 hlt
  linarith [h1.2, h2.2]

theorem processImpl_decay_target [FloorRing K] (h : Host K L F) (e : Effect K L F)
    (line0 line1 : L) (datainL datainR dataoutL dataoutR : ℕ → K) (pitch : K) :
    (processImpl h e line0 line1 datainL datainR dataoutL dataoutR pitch).effect.lipolDecay.target
      = decayCoefficient h.sqrt (e.param FloatParams.fpDecay) := by
  simp only [processImpl, prepareBlock, setupFilters, Lipol.set_target, Lipol.consumed,
    Lipol.instantize]
  split_ifs <;> rfl

/-- The pitch interpolators receive the raw quotient: nothing bounds it on the way. -/
theorem delay_target_unclamped [FloorRing K] (h : Host K L F) (e : Effect K L F) (pitch : K) :
    (prepareBlock h e pitch).lipolPitchOne.target
      = h.sampleRate / (440 * h.note_to_pitch_ignoring_tuning
          (pitch + e.param FloatParams.fpOffsetOne
            + pitchAdjustmentForStiffness (e.param FloatParams.fpStiffness))) ∧
    (prepareBlock h e pitch).lipolPitchTwo.target
      = h.sampleRate / (440 * h.note_to_pitch_ignoring_tuning
          (pitch + e.param FloatParams.fpOffsetTwo
            + pitchAdjustmentForStiffness (e.param FloatParams.fpStiffness))) := by
  simp only [prepareBlock, setupFilters, Lipol.set_target, Lipol.instantize, delayTime]
  split_ifs <;> exact ⟨rfl, rfl⟩

theorem processImpl_lineSupport [FloorRing K] (h : Host K L F) (e : Effect K L F)
    (line0 line1 : L) (datainL datainR dataoutL dataoutR : ℕ → K) (pitch : K) :
    (processImpl h e line0 line1 datainL datainR dataoutL dataoutR pitch).effect.lineSupport0
        = e.lineSupport0 ∧
    (processImpl h e line0 line1 datainL datainR dataoutL dataoutR pitch).effect.lineSupport1
        = e.lineSupport1 ∧
    (processImpl h e line0 line1 datainL datainR dataoutL dataoutR pitch).effect.isShort
        = e.isShort := by
  simp only [processImpl, prepareBlock, setupFilters]
  split_ifs <;> exact ⟨rfl, rfl, rfl⟩

theorem initVoiceEffect_short (h : Host K L F) (e : Effect K L F)
    (hsr : h.sampleRate * 0.1 ≤ 2 ^ 14) :
    initVoiceEffect h e =
      { e with
        isShort := true
        lineSupport0 := { line := h.newLine 14, calls := e.lineSupport0.calls ++
          [PoolCall.preReserveLines 14, PoolCall.prepareLine 14] }
        lineSupport1 := { line := h.newLine 14, calls := e.lineSupport1.calls ++
          [PoolCall.preReserveLines 14, PoolCall.prepareLine 14] } } := by
  have hcast : (((2 ^ 14 : ℕ)) : K) = 2 ^ 14 := by norm_num
  unfold initVoiceEffect
  rw [hcast, if_neg (not_lt.mpr hsr)]
  simp [DelayLineSupport.preReserveLines, DelayLineSupport.prepareLine, shortLineSize]

theorem initVoiceEffect_long (h : Host K L F) (e : Effect K L F)
    (hsr : ¬ h.sampleRate * 0.1 ≤ 2 ^ 14) :
    initVoiceEffect h e =
      { e with
        isShort := false
        lineSupport0 := { line := h.newLine 16, calls := e.lineSupport0.calls ++
          [PoolCall.preReserveLines 16, PoolCall.prepareLine 16] }
        lineSupport1 := { line := h.newLine 16, calls := e.lineSupport1.calls ++
          [PoolCall.preReserveLines 16, PoolCall.prepareLine 16] } } := by
  have hcast : (((2 ^ 14 : ℕ)) : K) = 2 ^ 14 := by norm_num
  unfold initVoiceEffect
  rw [hcast, if_pos (not_le.mp hsr)]
  simp [DelayLineSupport.preReserveLines, DelayLineSupport.prepareLine, longLineSize]

/-- Initialising a fresh effect on the concrete host at 48000 Hz picks the short class. -/
theorem initVoiceEffect_concrete (p : FloatParams → ℚ) :
    initVoiceEffect concreteHost (freshEffect p)
      = { freshEffect p with
          isShort := true
          lineSupport0 := { line := [], calls :=
            [PoolCall.preReserveLines 14, PoolCall.prepareLine 14] }
          lineSupport1 := { line := [], calls :=
            [PoolCall.preReserveLines 14, PoolCall.prepareLine 14] } } := by
  rw [initVoiceEffect_short concreteHost (freshEffect p)
    (by norm_num [concreteHost, plainHost])]
  simp [concreteHost, plainHost, freshEffect, construct]

theorem floor_neg_eight : ⌊(-8 : ℚ)⌋ = -8 := by
  have h : ⌊((-8 : ℤ) : ℚ)⌋ = -8 := Int.floor_intCast (-8 : ℤ)
  simpa using h

/-- The constructor leaves the first-block flag false and `initVoiceEffect` does not touch
it, so the first block of a fresh effect sets targets without snapping to them. -/
theorem fresh_effect_not_instantized [FloorRing K] (h : Host K L F) (param : FloatParams → K)
    (line0 line1 : L) (lipol0 : Lipol K) (lp hp : F) (pitch : K) :
    (construct param line0 line1 lipol0 lp hp).firstPitch = false ∧
    (initVoiceEffect h (construct param line0 line1 lipol0 lp hp)).firstPitch = false ∧
    (prepareBlock h (initVoiceEffect h (construct param line0 line1 lipol0 lp hp))
        pitch).lipolPitchOne
      = lipol0.set_target h.blockSize (delayTime h (pitch + param FloatParams.fpOffsetOne
          + pitchAdjustmentForStiffness (param FloatParams.fpStiffness))) ∧
    (prepareBlock h (initVoiceEffect h (construct param line0 line1 lipol0 lp hp))
        pitch).lipolPitchTwo
      = lipol0.set_target h.blockSize (delayTime h (pitch + param FloatParams.fpOffsetTwo
          + pitchAdjustmentForStiffness (param FloatParams.fpStiffness))) ∧
    (prepareBlock h (initVoiceEffect h (construct param line0 line1 lipol0 lp hp))
        pitch).lipolDecay
      = lipol0.set_target h.blockSize (decayCoefficient h.sqrt (param FloatParams.fpDecay)) := by
  by_cases hsr : h.sampleRate * 0.1 ≤ 2 ^ 14
  · rw [initVoiceEffect_short h _ hsr]
    refine ⟨rfl, rfl, ?_, ?_, ?_⟩ <;> simp [prepareBlock, setupFilters, construct]
  · rw [initVoiceEffect_long h _ hsr]
    refine ⟨rfl, rfl, ?_, ?_, ?_⟩ <;> simp [prepareBlock, setupFilters, construct]

theorem toneStage_zero (h : Host K L F) (lp hp : F) (a b : K) :
    toneStage h 0 lp hp a b = (lp, hp, a, b) := by
  simp [toneStage]

theorem sampleStep_zero_tone [FloorRing K] (h : Host K L F) (p1 p2 : K)
    (datainL datainR dtOne dtTwo dc : ℕ → K) (i : ℕ) (st : LoopState K L F) :
    sampleStep h p1 p2 0 datainL datainR dtOne dtTwo dc i st
      = sampleStepUnfiltered h p1 p2 datainL datainR dtOne dtTwo dc i st := by
  simp only [sampleStep, sampleStepUnfiltered, toneStage_zero]

theorem sampleLoop_zero_tone [FloorRing K] (h : Host K L F) (p1 p2 : K)
    (datainL datainR dtOne dtTwo dc : ℕ → K) (n : ℕ) (st : LoopState K L F) :
    sampleLoop h p1 p2 0 datainL datainR dtOne dtTwo dc n st
      = sampleLoopUnfiltered h p1 p2 datainL datainR dtOne dtTwo dc n st := by
  induction n with
  | zero => rfl
  | succ n ih => simp only [sampleLoop, sampleLoopUnfiltered, ih, sampleStep_zero_tone]

theorem sampleLoopUnfiltered_filters [FloorRing K] (h : Host K L F) (p1 p2 : K)
    (datainL datainR dtOne dtTwo dc : ℕ → K) (n : ℕ) (st : LoopState K L F) :
    (sampleLoopUnfiltered h p1 p2 datainL datainR dtOne dtTwo dc n st).lp = st.lp ∧
    (sampleLoopUnfiltered h p1 p2 datainL datainR dtOne dtTwo dc n st).hp = st.hp := by
  induction n with
  | zero => exact ⟨rfl, rfl⟩
  | succ n ih => simpa only [sampleLoopUnfiltered, sampleStepUnfiltered] using ih

/-- Whatever sample index `i` the loop has passed, the output it holds there is the one
iteration `i` stored: later iterations write other indices. -/
theorem sampleLoopUnfiltered_output [FloorRing K] (h : Host K L F) (p1 p2 : K)
    (datainL datainR dtOne dtTwo dc : ℕ → K) (st : LoopState K L F) (i n : ℕ) (hin : i < n) :
    (sampleLoopUnfiltered h p1 p2 datainL datainR dtOne dtTwo dc n st).dataoutL i
      = (sampleLoopUnfiltered h p1 p2 datainL datainR dtOne dtTwo dc (i + 1) st).dataoutL i ∧
    (sampleLoopUnfiltered h p1 p2 datainL datainR dtOne dtTwo dc n st).dataoutR i
      = (sampleLoopUnfiltered h p1 p2 datainL datainR dtOne dtTwo dc (i + 1) st).dataoutR i := by
  induction n with
  | zero => exact absurd hin (Nat.not_lt_zero i)
  | succ n ih =>
    rcases Nat.lt_succ_iff_lt_or_eq.mp hin with hlt | heq
    · have hne : i ≠ n := Nat.ne_of_lt hlt
      have := ih hlt
      constructor
      · rw [← this.1]
        simp only [sampleLoopUnfiltered, sampleStepUnfiltered, Function.update_noteq hne]
      · rw [← this.2]
        simp only [sampleLoopUnfiltered, sampleStepUnfiltered, Function.update_noteq hne]
    · subst heq
      exact ⟨rfl, rfl⟩

theorem prepareBlock_param [FloorRing K] (h : Host K L F) (e : Effect K L F) (pitch : K) :
    (prepareBlock h e pitch).param = e.param := by
  simp only [prepareBlock, setupFilters]
  split_ifs <;> rfl

/-- With the stiffness at zero the loop of `processImpl` is the unfiltered loop. -/
theorem blockLoop_zero_tone [FloorRing K] (h : Host K L F) (e : Effect K L F)
    (line0 line1 : L) (datainL datainR dataoutL dataoutR : ℕ → K) (pitch : K)
    (htone : e.param FloatParams.fpStiffness = 0) (n : ℕ) :
    blockLoop h e line0 line1 datainL datainR dataoutL dataoutR pitch n
      = sampleLoopUnfiltered h
        ((e.param FloatParams.fpPanOne + 1) / 2) ((e.param FloatParams.fpPanTwo + 1) / 2)
        datainL datainR (prepareBlock h e pitch).lipolPitchOne.trajectory
        (prepareBlock h e pitch).lipolPitchTwo.trajectory
        (prepareBlock h e pitch).lipolDecay.trajectory n
        { line0 := line0, line1 := line1, lp := (prepareBlock h e pitch).lp,
          hp := (prepareBlock h e pitch).hp,
          dataoutL := copy_from_to h.blockSize datainL dataoutL,
          dataoutR := copy_from_to h.blockSize datainR dataoutR } := by
  have hp : (prepareBlock h e pitch).param FloatParams.fpStiffness = 0 := by
    rw [prepareBlock_param, htone]
  simp only [blockLoop, hp, sampleLoop_zero_tone]

/-! ## Theorems -/

/-- Claim C1: whatever the decay parameter, the target that `processImpl` gives the decay
interpolator is `min(sqrt(clamp(decay,0,1) * 0.12 + 0.88), 0.99999)`; it is below 1 and at
least `sqrt(0.88)`, and at decay 1 it is the cap 0.99999. Here `sqrt` is an exact square
root on the field of values. -/
theorem decay_target_bounds [FloorRing K] (h : Host K L F)
    (hs : ∀ x : K, 0 ≤ x → 0 ≤ h.sqrt x ∧ h.sqrt x * h.sqrt x = x)
    (e : Effect K L F) (line0 line1 : L) (datainL datainR dataoutL dataoutR : ℕ → K)
    (pitch : K) :
    (processImpl h e line0 line1 datainL datainR dataoutL dataoutR pitch).effect.lipolDecay.target
        = min (h.sqrt (max 0 (min (e.param FloatParams.fpDecay) 1) * 0.12 + 0.88)) 0.99999 ∧
    (processImpl h e line0 line1 datainL datainR dataoutL dataoutR pitch).effect.lipolDecay.target
        < 1 ∧
    h.sqrt 0.88 ≤
      (processImpl h e line0 line1 datainL datainR dataoutL dataoutR
        pitch).effect.lipolDecay.target ∧
    (e.param FloatParams.fpDecay = 1 →
      (processImpl h e line0 line1 datainL datainR dataoutL dataoutR
        pitch).effect.lipolDecay.target = 0.99999) := by
  rw [processImpl_decay_target, decayCoefficient_eq]
  set c : K := max 0 (min (e.param FloatParams.fpDecay) 1) with hc
  have hc0 : 0 ≤ c := le_max_left _ _
  have hc1 : c ≤ 1 := max_le zero_le_one (min_le_right _ _)
  refine ⟨rfl, ?_, ?_, ?_⟩
  · exact lt_of_le_of_lt (min_le_right _ _) (by norm_num)
  · refine le_min ?_ ?_
    · exact sqrt_le_of_sq_le h.sqrt hs _ _ (by norm_num) (by nlinarith)
    · by_contra hlt
      push_neg at hlt
      have h1 := hs 0.88 (by norm_num)
      have : (0.99999 : K) * 0.99999 < h.sqrt 0.88 * h.sqrt 0.88 :=
        mul_self_lt_mul_self (by norm_num) hlt
      rw [h1.2] at this
      norm_num at this
  · intro hd
    have hc' : c = 1 := by rw [hc, hd]; simp
    rw [hc']
    apply min_eq_right
    by_contra hlt
    push_neg at hlt
    have h1 := hs (1 * 0.12 + 0.88) (by norm_num)
    have : h.sqrt (1 * 0.12 + 0.88) * h.sqrt (1 * 0.12 + 0.88) < 0.99999 * 0.99999 :=
      mul_self_lt_mul_self h1.1 hlt
    rw [h1.2] at this
    norm_num at this

/-- Claim C1, at a concrete input: over the reals with the real square root and the decay
parameter at 1, the decay target is the cap. -/
theorem decay_target_bounds_witness :
    (processImpl (plainHost (48000 : ℝ) powAtIntegers Real.sqrt)
        (freshEffect (paramsOf 0 0 (-1) 1 1 0)) [] [] (fun _ => 0) (fun _ => 0)
        (fun _ => 0) (fun _ => 0) 0).effect.lipolDecay.target = 0.99999 :=
  (decay_target_bounds (plainHost (48000 : ℝ) powAtIntegers Real.sqrt)
    (fun x hx => ⟨Real.sqrt_nonneg x, Real.mul_self_sqrt hx⟩)
    (freshEffect (paramsOf 0 0 (-1) 1 1 0)) [] [] (fun _ => 0) (fun _ => 0)
    (fun _ => 0) (fun _ => 0) 0).2.2.2 rfl



/-- Claim C2, evaluated where it fails: at 48000 Hz the short class (2^14 samples) is
selected, and with pitch -48 and offset one at -48 (stiffness 0) the delay time of string
one has target 307200/11, about 27927 samples. The last sample of the block trajectory,
which the loop passes to `read` as it is, carries that value: more than the line holds. -/
theorem delay_exceeds_short_line :
    (initVoiceEffect concreteHost (freshEffect (paramsOf (-48) 0 (-1) 1 0.8 0))).isShort = true ∧
    (prepareBlock concreteHost
      (initVoiceEffect concreteHost (freshEffect (paramsOf (-48) 0 (-1) 1 0.8 0)))
      (-48)).lipolPitchOne.target = 307200 / 11 ∧
    (prepareBlock concreteHost
      (initVoiceEffect concreteHost (freshEffect (paramsOf (-48) 0 (-1) 1 0.8 0)))
      (-48)).lipolPitchOne.trajectory 15 = 307200 / 11 ∧
    ((2 : ℚ) ^ shortLineSize) < 307200 / 11 := by
  have hd : delayTime concreteHost (-48 + -48 + 0) = 307200 / 11 := by
    norm_num [delayTime, concreteHost, plainHost, ConcreteConfig.noteToPitchIgnoringTuning,
      ConcreteConfig.noteToPitch, powAtIntegers, floor_neg_eight]
  rw [initVoiceEffect_concrete]
  refine ⟨rfl, ?_, ?_, by norm_num [shortLineSize]⟩
  · simp only [prepareBlock, setupFilters, freshEffect, construct, paramsOf, Lipol.set_target,
      pitchAdjustment_zero, hd]
    simp
  · simp only [prepareBlock, setupFilters, freshEffect, construct, paramsOf, Lipol.set_target,
      pitchAdjustment_zero, hd, Lipol.trajectory]
    norm_num [concreteHost, plainHost, ConcreteConfig.blockSize]

/-- Claim C3, evaluated where it fails: a freshly constructed and initialised effect has
its first-block flag false, so on its first block (pitch 0, offsets 0, at 48000 Hz) the
delay-time trajectories are not snapped: the target is 1200/11 while the first sample of
both trajectories is 75/11, one sixteenth of the way up from the interpolator's start. -/
theorem first_block_ramps :
    (freshEffect (paramsOf (0 : ℚ) 0 (-1) 1 0.8 0)).firstPitch = false ∧
    (initVoiceEffect concreteHost (freshEffect (paramsOf 0 0 (-1) 1 0.8 0))).firstPitch = false ∧
    (prepareBlock concreteHost
      (initVoiceEffect concreteHost (freshEffect (paramsOf 0 0 (-1) 1 0.8 0)))
      0).lipolPitchOne.target = 1200 / 11 ∧
    (prepareBlock concreteHost
      (initVoiceEffect concreteHost (freshEffect (paramsOf 0 0 (-1) 1 0.8 0)))
      0).lipolPitchOne.trajectory 0 = 75 / 11 ∧
    (prepareBlock concreteHost
      (initVoiceEffect concreteHost (freshEffect (paramsOf 0 0 (-1) 1 0.8 0)))
      0).lipolPitchTwo.trajectory 0 = 75 / 11 := by
  have hd : delayTime concreteHost (0 + 0 + 0) = 1200 / 11 := by
    norm_num [delayTime, concreteHost, plainHost, ConcreteConfig.noteToPitchIgnoringTuning,
      ConcreteConfig.noteToPitch, powAtIntegers]
  rw [initVoiceEffect_concrete]
  refine ⟨rfl, rfl, ?_, ?_, ?_⟩
  · simp only [prepareBlock, setupFilters, freshEffect, construct, paramsOf, Lipol.set_target,
      pitchAdjustment_zero, hd]
    simp
  · simp only [prepareBlock, setupFilters, freshEffect, construct, paramsOf, Lipol.set_target,
      pitchAdjustment_zero, hd, Lipol.trajectory]
    norm_num [concreteHost, plainHost, ConcreteConfig.blockSize]
  · simp only [prepareBlock, setupFilters, freshEffect, construct, paramsOf, Lipol.set_target,
      pitchAdjustment_zero, hd, Lipol.trajectory]
    norm_num [concreteHost, plainHost, ConcreteConfig.blockSize]

/-- Claim C4: `initVoiceEffect` selects the short class (line size 14) exactly when
`sampleRate * 0.1 <= 2^14` and the long class (line size 16) otherwise; it reserves and
prepares both lines at that class; the destructor returns both lines at that class, also
after a block has been processed; `processStereo` fetches both line pointers at it. -/
theorem capacity_class_selection [FloorRing K] (h : Host K L F) (e : Effect K L F)
    (datainL datainR dataoutL dataoutR : ℕ → K) (pitch : K) :
    ((initVoiceEffect h e).isShort = true ↔ h.sampleRate * 0.1 ≤ 2 ^ 14) ∧
    (initVoiceEffect h e).lineSupport0.calls = e.lineSupport0.calls ++
      [PoolCall.preReserveLines (if h.sampleRate * 0.1 ≤ 2 ^ 14 then 14 else 16),
       PoolCall.prepareLine (if h.sampleRate * 0.1 ≤ 2 ^ 14 then 14 else 16)] ∧
    (initVoiceEffect h e).lineSupport1.calls = e.lineSupport1.calls ++
      [PoolCall.preReserveLines (if h.sampleRate * 0.1 ≤ 2 ^ 14 then 14 else 16),
       PoolCall.prepareLine (if h.sampleRate * 0.1 ≤ 2 ^ 14 then 14 else 16)] ∧
    (destruct (initVoiceEffect h e)).lineSupport0.calls
      = (initVoiceEffect h e).lineSupport0.calls ++
        [PoolCall.returnLines (if h.sampleRate * 0.1 ≤ 2 ^ 14 then 14 else 16)] ∧
    (destruct (initVoiceEffect h e)).lineSupport1.calls
      = (initVoiceEffect h e).lineSupport1.calls ++
        [PoolCall.returnLines (if h.sampleRate * 0.1 ≤ 2 ^ 14 then 14 else 16)] ∧
    (processStereo h (initVoiceEffect h e) datainL datainR dataoutL dataoutR
        pitch).effect.lineSupport0.calls
      = (initVoiceEffect h e).lineSupport0.calls ++
        [PoolCall.getLinePointer (if h.sampleRate * 0.1 ≤ 2 ^ 14 then 14 else 16)] ∧
    (processStereo h (initVoiceEffect h e) datainL datainR dataoutL dataoutR
        pitch).effect.lineSupport1.calls
      = (initVoiceEffect h e).lineSupport1.calls ++
        [PoolCall.getLinePointer (if h.sampleRate * 0.1 ≤ 2 ^ 14 then 14 else 16)] ∧
    (destruct (processStereo h (initVoiceEffect h e) datainL datainR dataoutL dataoutR
        pitch).effect).lineSupport0.calls
      = (initVoiceEffect h e).lineSupport0.calls ++
        [PoolCall.getLinePointer (if h.sampleRate * 0.1 ≤ 2 ^ 14 then 14 else 16),
         PoolCall.returnLines (if h.sampleRate * 0.1 ≤ 2 ^ 14 then 14 else 16)] ∧
    (destruct (processStereo h (initVoiceEffect h e) datainL datainR dataoutL dataoutR
        pitch).effect).lineSupport1.calls
      = (initVoiceEffect h e).lineSupport1.calls ++
        [PoolCall.getLinePointer (if h.sampleRate * 0.1 ≤ 2 ^ 14 then 14 else 16),
         PoolCall.returnLines (if h.sampleRate * 0.1 ≤ 2 ^ 14 then 14 else 16)] := by
  by_cases hsr : h.sampleRate * 0.1 ≤ 2 ^ 14
  · rw [initVoiceEffect_short h e hsr]
    simp [hsr, destruct, processStereo, processWithClass,
      processImpl_lineSupport, DelayLineSupport.returnLines, DelayLineSupport.getLinePointer,
      shortLineSize]
  · rw [initVoiceEffect_long h e hsr]
    simp [hsr, destruct, processStereo, processWithClass,
      processImpl_lineSupport, DelayLineSupport.returnLines, DelayLineSupport.getLinePointer,
      longLineSize]

/-- Claim C5: with the stiffness parameter at exactly 0, `processImpl` gives the same
result as the computation with the tone filter stage removed; throughout the loop the two
filters stay as `setupFilters` left them (no `process_sample` is applied), and iteration
`n` writes to each line `balancedMonoSum(pan, inL[n], inR[n]) + decay[n] * read`, the read
coming from that string's own line. -/
theorem bypass_at_zero_stiffness [FloorRing K] (h : Host K L F) (e : Effect K L F)
    (line0 line1 : L) (datainL datainR dataoutL dataoutR : ℕ → K) (pitch : K)
    (htone : e.param FloatParams.fpStiffness = 0) :
    processImpl h e line0 line1 datainL datainR dataoutL dataoutR pitch
      = processImplUnfiltered h e line0 line1 datainL datainR dataoutL dataoutR pitch ∧
    (∀ n : ℕ,
      (blockLoop h e line0 line1 datainL datainR dataoutL dataoutR pitch n).lp
        = (prepareBlock h e pitch).lp ∧
      (blockLoop h e line0 line1 datainL datainR dataoutL dataoutR pitch n).hp
        = (prepareBlock h e pitch).hp ∧
      (blockLoop h e line0 line1 datainL datainR dataoutL dataoutR pitch (n + 1)).line0
        = h.write (blockLoop h e line0 line1 datainL datainR dataoutL dataoutR pitch n).line0
            (balancedMonoSum ((e.param FloatParams.fpPanOne + 1) / 2) (datainL n) (datainR n)
              + (prepareBlock h e pitch).lipolDecay.trajectory n
                * h.read (blockLoop h e line0 line1 datainL datainR dataoutL dataoutR pitch n).line0
                    ((prepareBlock h e pitch).lipolPitchOne.trajectory n)) ∧
      (blockLoop h e line0 line1 datainL datainR dataoutL dataoutR pitch (n + 1)).line1
        = h.write (blockLoop h e line0 line1 datainL datainR dataoutL dataoutR pitch n).line1
            (balancedMonoSum ((e.param FloatParams.fpPanTwo + 1) / 2) (datainL n) (datainR n)
              + (prepareBlock h e pitch).lipolDecay.trajectory n
                * h.read (blockLoop h e line0 line1 datainL datainR dataoutL dataoutR pitch n).line1
                    ((prepareBlock h e pitch).lipolPitchTwo.trajectory n))) := by
  have hloop := blockLoop_zero_tone h e line0 line1 datainL datainR dataoutL dataoutR pitch htone
  constructor
  · simp only [processImpl, processImplUnfiltered, hloop]
    have hf := sampleLoopUnfiltered_filters h
      ((e.param FloatParams.fpPanOne + 1) / 2) ((e.param FloatParams.fpPanTwo + 1) / 2)
      datainL datainR (prepareBlock h e pitch).lipolPitchOne.trajectory
      (prepareBlock h e pitch).lipolPitchTwo.trajectory
      (prepareBlock h e pitch).lipolDecay.trajectory h.blockSize
      { line0 := line0, line1 := line1, lp := (prepareBlock h e pitch).lp,
        hp := (prepareBlock h e pitch).hp,
        dataoutL := copy_from_to h.blockSize datainL dataoutL,
        dataoutR := copy_from_to h.blockSize datainR dataoutR }
    rw [hf.1, hf.2]
  · intro n
    rw [hloop (n + 1), hloop n]
    refine ⟨?_, ?_, rfl, rfl⟩
    · exact (sampleLoopUnfiltered_filters h _ _ _ _ _ _ _ n _).1
    · exact (sampleLoopUnfiltered_filters h _ _ _ _ _ _ _ n _).2

/-- Claim C5, at a concrete input: a fresh effect on the concrete host with stiffness 0,
fed a constant stereo block. -/
theorem bypass_at_zero_stiffness_witness :
    processImpl concreteHost (freshEffect (paramsOf 0 0 (-1) 1 0.8 0)) [] []
        (fun _ => 1) (fun _ => 2) (fun _ => 0) (fun _ => 0) 0
      = processImplUnfiltered concreteHost (freshEffect (paramsOf 0 0 (-1) 1 0.8 0)) [] []
        (fun _ => 1) (fun _ => 2) (fun _ => 0) (fun _ => 0) 0 :=
  (bypass_at_zero_stiffness concreteHost (freshEffect (paramsOf 0 0 (-1) 1 0.8 0)) [] []
    (fun _ => 1) (fun _ => 2) (fun _ => 0) (fun _ => 0) 0 rfl).1

/-- Claim C6: `balancedMonoSum` returns `leftIn` at pan 0, `rightIn` at pan 1 and
`leftIn + rightIn` at pan 0.5; at every other pan it returns
`leftIn * equalPowerFormula(pi/2 - pan*pi/2) + rightIn * equalPowerFormula(pan*pi/2)`. -/
theorem balancedMonoSum_cases (pan leftIn rightIn : K) :
    balancedMonoSum 0 leftIn rightIn = leftIn ∧
    balancedMonoSum 1 leftIn rightIn = rightIn ∧
    balancedMonoSum 0.5 leftIn rightIn = leftIn + rightIn ∧
    (pan ≠ 0 → pan ≠ 1 → pan ≠ 0.5 →
      balancedMonoSum pan leftIn rightIn
        = leftIn * equalPowerFormula (M_PI_2 - pan * M_PI_2)
          + rightIn * equalPowerFormula (pan * M_PI_2)) := by
  refine ⟨?_, ?_, ?_, ?_⟩
  · norm_num [balancedMonoSum]
  · norm_num [balancedMonoSum]
  · norm_num [balancedMonoSum]
  · intro h0 h1 h5
    simp [balancedMonoSum, h0, h1, h5]

/-- Claim C6, at a concrete input: pan one quarter, left 1, right 2. -/
theorem balancedMonoSum_cases_witness :
    balancedMonoSum (1 / 4 : ℚ) 1 2
      = 1 * equalPowerFormula (M_PI_2 - 1 / 4 * M_PI_2)
        + 2 * equalPowerFormula (1 / 4 * M_PI_2) :=
  (balancedMonoSum_cases (1 / 4 : ℚ) 1 2).2.2.2 (by norm_num) (by norm_num) (by norm_num)

/-- Claim C7 fails as stated: at pan 0 and mono input 1 the left output of
`panLineToOutput` is not 1, and at pan 1 and mono input 1 the left output is not 0. -/
theorem panLineToOutput_pan_zero_not_unity :
    (panLineToOutput (0 : ℚ) 1).1 ≠ 1 ∧ (panLineToOutput (1 : ℚ) 1).1 ≠ 0 := by
  constructor
  · rw [panLineToOutput_zero]
    norm_num [equalPowerFormula]
  · rw [panLineToOutput_one]
    norm_num [equalPowerFormula]

/-- Claim C7, amended: with `t = float(M_PI_2) = 13176795/2^23` and
`u = float(M_PI_2 - t) = -12303662/2^48`, `panLineToOutput` gives at pan 0 `outR = 0` and
`outL = m * equalPowerFormula(t)`, and at pan 1 `outR = m * equalPowerFormula(t)` and
`outL = m * equalPowerFormula(u)`. `equalPowerFormula` is exactly 0 at 0, lies between
1.42 and 1.421 at `t` (the near channel has that gain, not 1), and lies between -6.19e-8
and -6.18e-8 at `u` (the far channel at pan 1 is not silent). -/
theorem panLineToOutput_extremes [FloorRing K] (m : K) :
    panLineToOutput 0 m = (m * equalPowerFormula (narrowToFloat M_PI_2), 0) ∧
    panLineToOutput 1 m
      = (m * equalPowerFormula (narrowToFloat (M_PI_2 - narrowToFloat M_PI_2)),
         m * equalPowerFormula (narrowToFloat M_PI_2)) ∧
    narrowToFloat (M_PI_2 : K) = 13176795 / 2 ^ 23 ∧
    narrowToFloat ((M_PI_2 : K) - narrowToFloat M_PI_2) = -12303662 / 2 ^ 48 ∧
    equalPowerFormula (0 : K) = 0 ∧
    (1.42 : K) < equalPowerFormula (narrowToFloat M_PI_2) ∧
    equalPowerFormula (narrowToFloat (M_PI_2 : K)) < 1.421 ∧
    (-619 / 10 ^ 10 : K) < equalPowerFormula (narrowToFloat (M_PI_2 - narrowToFloat M_PI_2)) ∧
    equalPowerFormula (narrowToFloat ((M_PI_2 : K) - narrowToFloat M_PI_2))
      < -618 / 10 ^ 10 := by
  have ht : narrowToFloat (M_PI_2 : K) = 13176795 / 2 ^ 23 := narrowToFloat_M_PI_2
  have hu : narrowToFloat ((M_PI_2 : K) - narrowToFloat M_PI_2) = -12303662 / 2 ^ 48 := by
    rw [ht]
    exact narrowToFloat_residual
  have hg := @equalPowerFormula_at_extremes K _
  rw [hu, ht]
  refine ⟨?_, panLineToOutput_one m, rfl, rfl, equalPowerFormula_zero,
    hg.1, hg.2.1, hg.2.2.1, hg.2.2.2⟩
  rw [panLineToOutput_zero, equalPowerFormula_zero, mul_zero]

/-- Claim C8: `pitchAdjustmentForStiffness` equals the reference piecewise-linear lookup
at every stiffness `t`; it is exactly 0 at 0; the index it computes satisfies
`0 <= idx` and `idx + 1 <= 4`; for `t <= -1` the result is 0.7590243 and for `1 <= t` it is
-0.87, the negated last table entries. -/
theorem pitchAdjustment_eq_reference [FloorRing K] (t : K) :
    pitchAdjustmentForStiffness t = referenceLookup t ∧
    pitchAdjustmentForStiffness (0 : K) = 0 ∧
    (0 ≤ stiffnessIndex t ∧ stiffnessIndex t + 1 ≤ 4) ∧
    (t ≤ -1 → pitchAdjustmentForStiffness t = 0.7590243) ∧
    (1 ≤ t → pitchAdjustmentForStiffness t = -0.87) := by
  have hidx : 0 ≤ stiffnessIndex t ∧ stiffnessIndex t + 1 ≤ 4 := by
    unfold stiffnessIndex
    split_ifs <;> exact clamp_index_bounds _
  refine ⟨?_, pitchAdjustment_zero, hidx, ?_, ?_⟩
  · unfold pitchAdjustmentForStiffness referenceLookup
    by_cases h0 : t = 0
    · simp [h0]
    · simp only [h0, if_false]
      by_cases hneg : t < 0
      · have habs : 4 * |t| = -4 * t := by rw [abs_of_neg hneg]; ring
        have htab : referenceTable t = retunesNeg := by simp [referenceTable, hneg, retunesNeg]
        simp only [hneg, if_true, habs, htab]
        exact congrArg Neg.neg (lookup_core retunesNeg (-4 * t))
      · have hpos : 0 < t := lt_of_le_of_ne (not_lt.mp hneg) (Ne.symm h0)
        have habs : 4 * |t| = 4 * t := by rw [abs_of_pos hpos]
        have htab : referenceTable t = retunesPos := by simp [referenceTable, hneg, retunesPos]
        simp only [hneg, if_false, habs, htab]
        exact congrArg Neg.neg (lookup_core retunesPos (4 * t))
  · intro ht
    have h0 : t ≠ 0 := by intro h; rw [h] at ht; norm_num at ht
    have hneg : t < 0 := by linarith
    unfold pitchAdjustmentForStiffness
    simp only [h0, hneg, if_false, if_true]
    rw [lookup_at_top retunesNeg (-4 * t) (by linarith)]
    norm_num [retunesNeg]
  · intro ht
    have h0 : t ≠ 0 := by intro h; rw [h] at ht; norm_num at ht
    have hneg : ¬ t < 0 := by linarith
    unfold pitchAdjustmentForStiffness
    simp only [h0, hneg, if_false]
    rw [lookup_at_top retunesPos (4 * t) (by linarith)]
    norm_num [retunesPos]

/-- Claim C8, at concrete inputs: stiffness -2 and stiffness 2, both beyond the table. -/
theorem pitchAdjustment_eq_reference_witness :
    pitchAdjustmentForStiffness (-2 : ℚ) = 0.7590243 ∧
    pitchAdjustmentForStiffness (2 : ℚ) = -0.87 :=
  ⟨(pitchAdjustment_eq_reference (-2 : ℚ)).2.2.2.1 (by norm_num),
   (pitchAdjustment_eq_reference (2 : ℚ)).2.2.2.2 (by norm_num)⟩

/-- Claim C9 fails as stated: neither one-sided limit of `pitchAdjustmentForStiffness` at 0
equals its value at 0; within 1/100 of that value there is no neighbourhood on either
side. -/
theorem pitchAdjustment_jump_at_zero :
    (¬ ∀ ε : ℚ, 0 < ε → ∃ δ : ℚ, 0 < δ ∧ ∀ t : ℚ, -δ < t → t < 0 →
        |pitchAdjustmentForStiffness t - pitchAdjustmentForStiffness 0| < ε) ∧
    (¬ ∀ ε : ℚ, 0 < ε → ∃ δ : ℚ, 0 < δ ∧ ∀ t : ℚ, 0 < t → t < δ →
        |pitchAdjustmentForStiffness t - pitchAdjustmentForStiffness 0| < ε) := by
  have hz : pitchAdjustmentForStiffness (0 : ℚ) = 0 := pitchAdjustment_zero
  constructor
  · intro hc
    obtain ⟨δ, hδ, hlim⟩ := hc (1 / 100) (by norm_num)
    have hm : 0 < min (δ / 2) (1 / 8) := lt_min (by linarith) (by norm_num)
    have hm1 : min (δ / 2) (1 / 8) ≤ δ / 2 := min_le_left _ _
    have hm2 : min (δ / 2) (1 / 8) ≤ 1 / 8 := min_le_right _ _
    have := hlim (-(min (δ / 2) (1 / 8))) (by linarith) (by linarith)
    rw [hz, pitchAdjustment_below _ (by linarith) (by linarith), sub_zero, abs_lt] at this
    norm_num at this
    linarith [this.2]
  · intro hc
    obtain ⟨δ, hδ, hlim⟩ := hc (1 / 100) (by norm_num)
    have hm : 0 < min (δ / 2) (1 / 8) := lt_min (by linarith) (by norm_num)
    have hm1 : min (δ / 2) (1 / 8) ≤ δ / 2 := min_le_left _ _
    have hm2 : min (δ / 2) (1 / 8) ≤ 1 / 8 := min_le_right _ _
    have := hlim (min (δ / 2) (1 / 8)) hm (by linarith)
    rw [hz, pitchAdjustment_above _ hm (by linarith), sub_zero, abs_lt] at this
    norm_num at this
    linarith [this.1]

/-- Claim C9, amended: `pitchAdjustmentForStiffness` is exactly 0 at 0, its limit from
below at 0 is 0.0591202 and its limit from above is -0.02752047 (the negated first entries
of the two tables), so it jumps on both sides of 0. -/
theorem pitchAdjustment_one_sided_limits [FloorRing K] :
    pitchAdjustmentForStiffness (0 : K) = 0 ∧
    (∀ ε : K, 0 < ε → ∃ δ : K, 0 < δ ∧ ∀ t : K, -δ < t → t < 0 →
        |pitchAdjustmentForStiffness t - 0.0591202| < ε) ∧
    (∀ ε : K, 0 < ε → ∃ δ : K, 0 < δ ∧ ∀ t : K, 0 < t → t < δ →
        |pitchAdjustmentForStiffness t - (-0.02752047)| < ε) := by
  refine ⟨pitchAdjustment_zero, ?_, ?_⟩
  · intro ε hε
    refine ⟨min ε (1 / 4), lt_min hε (by norm_num), ?_⟩
    intro t ht1 ht2
    have hm1 : min ε (1 / 4) ≤ ε := min_le_left _ _
    have hm2 : min ε (1 / 4) ≤ 1 / 4 := min_le_right _ _
    rw [pitchAdjustment_below t (by linarith) ht2, abs_lt]
    constructor <;> norm_num <;> linarith
  · intro ε hε
    refine ⟨min ε (1 / 4), lt_min hε (by norm_num), ?_⟩
    intro t ht1 ht2
    have hm1 : min ε (1 / 4) ≤ ε := min_le_left _ _
    have hm2 : min ε (1 / 4) ≤ 1 / 4 := min_le_right _ _
    rw [pitchAdjustment_above t ht1 (by linarith), abs_lt]
    constructor <;> norm_num <;> linarith

/-- Claim C9 amended, at a concrete input: over the rationals with tolerance 1/10, on each
side of 0. -/
theorem pitchAdjustment_one_sided_limits_witness :
    (∃ δ : ℚ, 0 < δ ∧ ∀ t : ℚ, -δ < t → t < 0 →
        |pitchAdjustmentForStiffness t - 0.0591202| < 1 / 10) ∧
    (∃ δ : ℚ, 0 < δ ∧ ∀ t : ℚ, 0 < t → t < δ →
        |pitchAdjustmentForStiffness t - (-0.02752047)| < 1 / 10) :=
  ⟨(@pitchAdjustment_one_sided_limits ℚ _ _).2.1 (1 / 10) (by norm_num),
   (@pitchAdjustment_one_sided_limits ℚ _ _).2.2 (1 / 10) (by norm_num)⟩

/-- With the stiffness at zero, output sample `i` of `processImpl` is the average of the two
panned string signals of iteration `i`, whatever the pans. -/
theorem blockOutput_zero_tone [FloorRing K] (h : Host K L F) (e : Effect K L F)
    (line0 line1 : L) (datainL datainR dataoutL dataoutR : ℕ → K) (pitch : K) (i : ℕ)
    (htone : e.param FloatParams.fpStiffness = 0) (hi : i < h.blockSize) :
    (processImpl h e line0 line1 datainL datainR dataoutL dataoutR pitch).dataoutL i
      = ((panLineToOutput ((e.param FloatParams.fpPanOne + 1) / 2)
            (balancedMonoSum ((e.param FloatParams.fpPanOne + 1) / 2) (datainL i) (datainR i)
              + (prepareBlock h e pitch).lipolDecay.trajectory i
                * h.read (blockLoop h e line0 line1 datainL datainR dataoutL dataoutR pitch i).line0
                    ((prepareBlock h e pitch).lipolPitchOne.trajectory i))).1
          + (panLineToOutput ((e.param FloatParams.fpPanTwo + 1) / 2)
            (balancedMonoSum ((e.param FloatParams.fpPanTwo + 1) / 2) (datainL i) (datainR i)
              + (prepareBlock h e pitch).lipolDecay.trajectory i
                * h.read (blockLoop h e line0 line1 datainL datainR dataoutL dataoutR pitch i).line1
                    ((prepareBlock h e pitch).lipolPitchTwo.trajectory i))).1) / 2 ∧
    (processImpl h e line0 line1 datainL datainR dataoutL dataoutR pitch).dataoutR i
      = ((panLineToOutput ((e.param FloatParams.fpPanOne + 1) / 2)
            (balancedMonoSum ((e.param FloatParams.fpPanOne + 1) / 2) (datainL i) (datainR i)
              + (prepareBlock h e pitch).lipolDecay.trajectory i
                * h.read (blockLoop h e line0 line1 datainL datainR dataoutL dataoutR pitch i).line0
                    ((prepareBlock h e pitch).lipolPitchOne.trajectory i))).2
          + (panLineToOutput ((e.param FloatParams.fpPanTwo + 1) / 2)
            (balancedMonoSum ((e.param FloatParams.fpPanTwo + 1) / 2) (datainL i) (datainR i)
              + (prepareBlock h e pitch).lipolDecay.trajectory i
                * h.read (blockLoop h e line0 line1 datainL datainR dataoutL dataoutR pitch i).line1
                    ((prepareBlock h e pitch).lipolPitchTwo.trajectory i))).2) / 2 := by
  have hloop := blockLoop_zero_tone h e line0 line1 datainL datainR dataoutL dataoutR pitch htone
  have hout := sampleLoopUnfiltered_output h
    ((e.param FloatParams.fpPanOne + 1) / 2) ((e.param FloatParams.fpPanTwo + 1) / 2)
    datainL datainR (prepareBlock h e pitch).lipolPitchOne.trajectory
    (prepareBlock h e pitch).lipolPitchTwo.trajectory
    (prepareBlock h e pitch).lipolDecay.trajectory
    { line0 := line0, line1 := line1, lp := (prepareBlock h e pitch).lp,
      hp := (prepareBlock h e pitch).hp,
      dataoutL := copy_from_to h.blockSize datainL dataoutL,
      dataoutR := copy_from_to h.blockSize datainR dataoutR } i h.blockSize hi
  constructor
  · simp only [processImpl]
    rw [hloop, hout.1, hloop]
    simp only [sampleLoopUnfiltered, sampleStepUnfiltered, Function.update_same]
  · simp only [processImpl]
    rw [hloop, hout.2, hloop]
    simp only [sampleLoopUnfiltered, sampleStepUnfiltered, Function.update_same]

/-- Reading the concrete host's line before anything was written gives 0. -/
theorem concreteHost_read_nil (d : ℚ) : concreteHost.read [] d = 0 := by
  simp [concreteHost, plainHost]

/-- Claim C10 fails as stated: on the concrete host with pans -1 and +1, stiffness 0, left
input 0 and right input 1, string one is silent, so the claimed left output
`(g(pi/2)*s1 + g(0)*s2)/2` at sample 0 is 0; the left output of `processImpl` is not: it
carries a share of string two. -/
theorem hard_pan_left_output_leak :
    (processImpl concreteHost (freshEffect (paramsOf 0 0 (-1) 1 0.8 0)) [] []
        (fun _ => 0) (fun _ => 1) (fun _ => 0) (fun _ => 0) 0).dataoutL 0
      ≠ (equalPowerFormula M_PI_2
            * (0 + (prepareBlock concreteHost (freshEffect (paramsOf 0 0 (-1) 1 0.8 0))
                  0).lipolDecay.trajectory 0
                * concreteHost.read
                  (blockLoop concreteHost (freshEffect (paramsOf 0 0 (-1) 1 0.8 0)) [] []
                    (fun _ => 0) (fun _ => 1) (fun _ => 0) (fun _ => 0) 0 0).line0
                  ((prepareBlock concreteHost (freshEffect (paramsOf 0 0 (-1) 1 0.8 0))
                    0).lipolPitchOne.trajectory 0))
          + equalPowerFormula 0
            * (1 + (prepareBlock concreteHost (freshEffect (paramsOf 0 0 (-1) 1 0.8 0))
                  0).lipolDecay.trajectory 0
                * concreteHost.read
                  (blockLoop concreteHost (freshEffect (paramsOf 0 0 (-1) 1 0.8 0)) [] []
                    (fun _ => 0) (fun _ => 1) (fun _ => 0) (fun _ => 0) 0 0).line1
                  ((prepareBlock concreteHost (freshEffect (paramsOf 0 0 (-1) 1 0.8 0))
                    0).lipolPitchTwo.trajectory 0))) / 2 := by
  have hl0 : (blockLoop concreteHost (freshEffect (paramsOf 0 0 (-1) 1 0.8 0)) [] []
      (fun _ => 0) (fun _ => 1) (fun _ => 0) (fun _ => 0) 0 0).line0 = [] := rfl
  have hl1 : (blockLoop concreteHost (freshEffect (paramsOf 0 0 (-1) 1 0.8 0)) [] []
      (fun _ => 0) (fun _ => 1) (fun _ => 0) (fun _ => 0) 0 0).line1 = [] := rfl
  have hp1 : ((freshEffect (paramsOf (0 : ℚ) 0 (-1) 1 0.8 0)).param FloatParams.fpPanOne + 1) / 2
      = 0 := by norm_num [freshEffect, construct, paramsOf]
  have hp2 : ((freshEffect (paramsOf (0 : ℚ) 0 (-1) 1 0.8 0)).param FloatParams.fpPanTwo + 1) / 2
      = 1 := by norm_num [freshEffect, construct, paramsOf]
  rw [(blockOutput_zero_tone concreteHost (freshEffect (paramsOf 0 0 (-1) 1 0.8 0)) [] []
    (fun _ => 0) (fun _ => 1) (fun _ => 0) (fun _ => 0) 0 0 rfl (by decide)).1]
  simp only [hl0, hl1, hp1, hp2, concreteHost_read_nil, balancedMonoSum_zero,
    balancedMonoSum_one, panLineToOutput_zero, panLineToOutput_one, equalPowerFormula_zero]
  norm_num [equalPowerFormula]

/-- Claim C10, amended: with pan one at -1, pan two at +1 and stiffness 0, for every sample
`i` of the block: string one receives `s1 = inL[i] + decay[i] * read1[i]` and string two
`s2 = inR[i] + decay[i] * read2[i]`; these sums are what is written to the two lines; with
`g = equalPowerFormula`, `t = float(M_PI_2) = 13176795/2^23` and
`u = float(M_PI_2 - t) = -12303662/2^48`, the outputs are `outL[i] = (g(t)*s1 + g(u)*s2)/2`
and `outR[i] = (g(0)*s1 + g(t)*s2)/2 = g(t)*s2/2`. So `outR[i]` has no share of string one,
while `outL[i]` has the share `g(u)/2` of string two, `g(u)` lying between -6.19e-8 and
-6.18e-8; the copied input is overwritten. -/
theorem end_to_end_hard_pan [FloorRing K] (h : Host K L F) (e : Effect K L F)
    (line0 line1 : L) (datainL datainR dataoutL dataoutR : ℕ → K) (pitch : K) (i : ℕ)
    (hpan1 : e.param FloatParams.fpPanOne = -1) (hpan2 : e.param FloatParams.fpPanTwo = 1)
    (htone : e.param FloatParams.fpStiffness = 0) (hi : i < h.blockSize) :
    let st := blockLoop h e line0 line1 datainL datainR dataoutL dataoutR pitch i
    let dc := (prepareBlock h e pitch).lipolDecay.trajectory
    let sOne := datainL i
      + dc i * h.read st.line0 ((prepareBlock h e pitch).lipolPitchOne.trajectory i)
    let sTwo := datainR i
      + dc i * h.read st.line1 ((prepareBlock h e pitch).lipolPitchTwo.trajectory i)
    let r := processImpl h e line0 line1 datainL datainR dataoutL dataoutR pitch
    let t : K := narrowToFloat M_PI_2
    let u : K := narrowToFloat (M_PI_2 - narrowToFloat M_PI_2)
    (blockLoop h e line0 line1 datainL datainR dataoutL dataoutR pitch (i + 1)).line0
        = h.write st.line0 sOne ∧
    (blockLoop h e line0 line1 datainL datainR dataoutL dataoutR pitch (i + 1)).line1
        = h.write st.line1 sTwo ∧
    r.dataoutL i = (equalPowerFormula t * sOne + equalPowerFormula u * sTwo) / 2 ∧
    r.dataoutR i = (equalPowerFormula 0 * sOne + equalPowerFormula t * sTwo) / 2 ∧
    r.dataoutR i = equalPowerFormula t * sTwo / 2 ∧
    t = 13176795 / 2 ^ 23 ∧ u = -12303662 / 2 ^ 48 ∧
    (-619 / 10 ^ 10 : K) < equalPowerFormula u ∧ equalPowerFormula u < -618 / 10 ^ 10 := by
  intro st dc sOne sTwo r t u
  have hp1 : (e.param FloatParams.fpPanOne + 1) / 2 = 0 := by rw [hpan1]; norm_num
  have hp2 : (e.param FloatParams.fpPanTwo + 1) / 2 = 1 := by rw [hpan2]; norm_num
  have ht : t = 13176795 / 2 ^ 23 := narrowToFloat_M_PI_2
  have hu : u = -12303662 / 2 ^ 48 := by
    show narrowToFloat ((M_PI_2 : K) - narrowToFloat M_PI_2) = _
    rw [narrowToFloat_M_PI_2]
    exact narrowToFloat_residual
  have hloop := blockLoop_zero_tone h e line0 line1 datainL datainR dataoutL dataoutR pitch htone
  have hout := blockOutput_zero_tone h e line0 line1 datainL datainR dataoutL dataoutR pitch i
    htone hi
  have hg := @equalPowerFormula_at_extremes K _
  have hL : r.dataoutL i
      = (equalPowerFormula t * sOne + equalPowerFormula u * sTwo) / 2 := by
    show (processImpl h e line0 line1 datainL datainR dataoutL dataoutR pitch).dataoutL i = _
    rw [hout.1, hp1, hp2, balancedMonoSum_zero, balancedMonoSum_one, panLineToOutput_zero,
      panLineToOutput_one, ht, hu]
    simp only [sOne, sTwo, dc, st]
    ring
  have hR : r.dataoutR i
      = (equalPowerFormula 0 * sOne + equalPowerFormula t * sTwo) / 2 := by
    show (processImpl h e line0 line1 datainL datainR dataoutL dataoutR pitch).dataoutR i = _
    rw [hout.2, hp1, hp2, balancedMonoSum_zero, balancedMonoSum_one, panLineToOutput_zero,
      panLineToOutput_one, ht]
    simp only [sOne, sTwo, dc, st]
    ring
  refine ⟨?_, ?_, hL, hR, ?_, ht, hu, ?_, ?_⟩
  · simp only [st, sOne, dc]
    rw [hloop, hloop]
    simp only [sampleLoopUnfiltered, sampleStepUnfiltered, hp1, balancedMonoSum_zero]
  · simp only [st, sTwo, dc]
    rw [hloop, hloop]
    simp only [sampleLoopUnfiltered, sampleStepUnfiltered, hp2, balancedMonoSum_one]
  · rw [hR, equalPowerFormula_zero]; ring
  · rw [hu]; exact hg.2.2.1
  · rw [hu]; exact hg.2.2.2

/-- Claim C10 amended, at a concrete input: sample 3 of the first block of a fresh effect
on the concrete host, left input 1 and right input 2; the right output has no share of
string one. -/
theorem end_to_end_hard_pan_witness :
    (processImpl concreteHost (freshEffect (paramsOf 0 0 (-1) 1 0.8 0)) [] []
        (fun _ => 1) (fun _ => 2) (fun _ => 0) (fun _ => 0) 0).dataoutR 3
      = equalPowerFormula (narrowToFloat M_PI_2)
        * (2 + (prepareBlock concreteHost (freshEffect (paramsOf 0 0 (-1) 1 0.8 0))
              0).lipolDecay.trajectory 3
            * concreteHost.read
              (blockLoop concreteHost (freshEffect (paramsOf 0 0 (-1) 1 0.8 0)) [] []
                (fun _ => 1) (fun _ => 2) (fun _ => 0) (fun _ => 0) 0 3).line1
              ((prepareBlock concreteHost (freshEffect (paramsOf 0 0 (-1) 1 0.8 0))
                0).lipolPitchTwo.trajectory 3)) / 2 :=
  (end_to_end_hard_pan concreteHost (freshEffect (paramsOf 0 0 (-1) 1 0.8 0)) [] []
    (fun _ => 1) (fun _ => 2) (fun _ => 0) (fun _ => 0) 0 3 rfl rfl rfl
    (by decide)).2.2.2.2.1

/-- The cutoffs of `setupFilters` in closed form, by the sign of the stiffness. -/
theorem filterCutoffs_eq (tone pt : K) :
    filterCutoffs tone pt
      = if tone > 0 then (100, tone * 80 - 70 + (pt + 69) - 60)
        else ((pt + 69) - 40 * |tone|, -70) := by
  unfold filterCutoffs
  split_ifs with h
  · simp only [Prod.mk.injEq, true_and]
    ring
  · have : |tone| = -tone := abs_of_nonpos (not_lt.mp h)
    simp only [this]

/-- The filters at the start of the loop are those left by the two `setupFilters` calls,
string one's pitch first and string two's pitch second. -/
theorem prepareBlock_filters [FloorRing K] (h : Host K L F) (e : Effect K L F) (pitch : K) :
    (prepareBlock h e pitch).lp
      = (setupFilters h (setupFilters h e
          (pitch + e.param FloatParams.fpOffsetOne
            + pitchAdjustmentForStiffness (e.param FloatParams.fpStiffness)))
          (pitch + e.param FloatParams.fpOffsetTwo
            + pitchAdjustmentForStiffness (e.param FloatParams.fpStiffness))).lp ∧
    (prepareBlock h e pitch).hp
      = (setupFilters h (setupFilters h e
          (pitch + e.param FloatParams.fpOffsetOne
            + pitchAdjustmentForStiffness (e.param FloatParams.fpStiffness)))
          (pitch + e.param FloatParams.fpOffsetTwo
            + pitchAdjustmentForStiffness (e.param FloatParams.fpStiffness))).hp := by
  simp only [prepareBlock, setupFilters]
  split_ifs <;> exact ⟨rfl, rfl⟩

/-- Claim C11: the filters `processImpl` enters its loop with carry the cutoffs of the
second `setupFilters` call, computed from `pt = pitch + fpOffsetTwo +
pitchAdjustmentForStiffness()`: low-pass `(pt+69) - 40*|tone|` and high-pass `-70` when
`tone <= 0`, high-pass `tone*80 - 70 + (pt+69) - 60` and low-pass `100` when `tone > 0`.
For a biquad whose coefficient calls overwrite what `view` shows of it, two runs that
differ only in `fpOffsetOne` show the same in both filters, namely what a single call with
those cutoffs stores. -/
theorem cutoffs_independent_of_offset_one [FloorRing K] {V : Type} (h : Host K L F)
    (view : F → V)
    (hLP : ∀ (f g : F) (omega q : K), view (h.coeff_LP f omega q) = view (h.coeff_LP g omega q))
    (hHP : ∀ (f g : F) (omega q : K), view (h.coeff_HP f omega q) = view (h.coeff_HP g omega q))
    (hom : ∀ (f g : F) (x : K), h.calc_omega f x = h.calc_omega g x)
    (e : Effect K L F) (pitch x : K) :
    view (prepareBlock h { e with param := Function.update e.param FloatParams.fpOffsetOne x }
        pitch).lp = view (prepareBlock h e pitch).lp ∧
    view (prepareBlock h { e with param := Function.update e.param FloatParams.fpOffsetOne x }
        pitch).hp = view (prepareBlock h e pitch).hp ∧
    view (prepareBlock h e pitch).lp
      = view (h.coeff_LP e.lp (h.calc_omega e.lp
          ((if e.param FloatParams.fpStiffness > 0 then 100
            else (pitch + e.param FloatParams.fpOffsetTwo
                + pitchAdjustmentForStiffness (e.param FloatParams.fpStiffness) + 69)
              - 40 * |e.param FloatParams.fpStiffness|) / 12)) 0.707) ∧
    view (prepareBlock h e pitch).hp
      = view (h.coeff_HP e.hp (h.calc_omega e.hp
          ((if e.param FloatParams.fpStiffness > 0 then
              e.param FloatParams.fpStiffness * 80 - 70
                + (pitch + e.param FloatParams.fpOffsetTwo
                  + pitchAdjustmentForStiffness (e.param FloatParams.fpStiffness) + 69) - 60
            else -70) / 12)) 0.707) := by
  have key : ∀ e0 : Effect K L F,
      e0.param FloatParams.fpStiffness = e.param FloatParams.fpStiffness →
      e0.param FloatParams.fpOffsetTwo = e.param FloatParams.fpOffsetTwo →
      view (prepareBlock h e0 pitch).lp
        = view (h.coeff_LP e.lp (h.calc_omega e.lp
            ((if e.param FloatParams.fpStiffness > 0 then 100
              else (pitch + e.param FloatParams.fpOffsetTwo
                  + pitchAdjustmentForStiffness (e.param FloatParams.fpStiffness) + 69)
                - 40 * |e.param FloatParams.fpStiffness|) / 12)) 0.707) ∧
      view (prepareBlock h e0 pitch).hp
        = view (h.coeff_HP e.hp (h.calc_omega e.hp
            ((if e.param FloatParams.fpStiffness > 0 then
                e.param FloatParams.fpStiffness * 80 - 70
                  + (pitch + e.param FloatParams.fpOffsetTwo
                    + pitchAdjustmentForStiffness (e.param FloatParams.fpStiffness) + 69) - 60
              else -70) / 12)) 0.707) := by
    intro e0 hst htwo
    rw [(prepareBlock_filters h e0 pitch).1, (prepareBlock_filters h e0 pitch).2]
    simp only [setupFilters, filterCutoffs_eq, hst, htwo]
    constructor
    · rw [hLP _ e.lp, hom _ e.lp]
      split_ifs <;> rfl
    · rw [hHP _ e.hp, hom _ e.hp]
      split_ifs <;> rfl
  have h1 := key e rfl rfl
  have h2 := key { e with param := Function.update e.param FloatParams.fpOffsetOne x }
    (by simp [Function.update]) (by simp [Function.update])
  exact ⟨h2.1.trans h1.1.symm, h2.2.trans h1.2.symm, h1.1, h1.2⟩

/-- Claim C11, at a concrete input: on the host whose filters keep the last `(omega, Q)`,
with stiffness -1/2, pitch 0 and offset two 0, moving offset one from 5 to -7 leaves both
filters as they were. -/
theorem cutoffs_independent_of_offset_one_witness :
    (prepareBlock (coefficientHost (48000 : ℚ) powAtIntegers sqrtFiveDecimals)
        { freshCoefficientEffect (paramsOf 5 0 (-1) 1 0.8 (-1 / 2)) with
          param := Function.update (paramsOf 5 0 (-1) 1 0.8 (-1 / 2))
            FloatParams.fpOffsetOne (-7) } 0).lp
      = (prepareBlock (coefficientHost (48000 : ℚ) powAtIntegers sqrtFiveDecimals)
          (freshCoefficientEffect (paramsOf 5 0 (-1) 1 0.8 (-1 / 2))) 0).lp ∧
    (prepareBlock (coefficientHost (48000 : ℚ) powAtIntegers sqrtFiveDecimals)
        { freshCoefficientEffect (paramsOf 5 0 (-1) 1 0.8 (-1 / 2)) with
          param := Function.update (paramsOf 5 0 (-1) 1 0.8 (-1 / 2))
            FloatParams.fpOffsetOne (-7) } 0).hp
      = (prepareBlock (coefficientHost (48000 : ℚ) powAtIntegers sqrtFiveDecimals)
          (freshCoefficientEffect (paramsOf 5 0 (-1) 1 0.8 (-1 / 2))) 0).hp :=
  ⟨(cutoffs_independent_of_offset_one
      (coefficientHost (48000 : ℚ) powAtIntegers sqrtFiveDecimals) id
      (fun _ _ _ _ => rfl) (fun _ _ _ _ => rfl) (fun _ _ _ => rfl)
      (freshCoefficientEffect (paramsOf 5 0 (-1) 1 0.8 (-1 / 2))) 0 (-7)).1,
   (cutoffs_independent_of_offset_one
      (coefficientHost (48000 : ℚ) powAtIntegers sqrtFiveDecimals) id
      (fun _ _ _ _ => rfl) (fun _ _ _ _ => rfl) (fun _ _ _ => rfl)
      (freshCoefficientEffect (paramsOf 5 0 (-1) 1 0.8 (-1 / 2))) 0 (-7)).2.1⟩

end Properties

end StringResonator
